import Mathlib

/-!
Verification of the worktree lifecycle / execution-coordination subsystem of
the `automaker` repository, against its natural-language specification.

The TypeScript sources are shallowly embedded: each route handler becomes a
pure Lean function from an explicit environment (the outcomes of the external
processes and filesystem calls it performs) to its HTTP-style response plus
the trace of external commands it issued.  JavaScript-specific semantics that
the handlers rely on (string truthiness, `||` / `??` defaulting, `trim`,
single-character `split`, first-occurrence `replace`, per-character global
regex replace) are modelled by dedicated helpers, defined over `List Char` so
that every definition evaluates by `decide` / `rfl` on concrete inputs.
-/

/-- Whitespace as recognised by JavaScript `trim` on the ASCII range (the
handlers only ever meet ASCII whitespace in command output). -/
def isJsWs (c : Char) : Bool :=
  c = ' ' || c = '\t' || c = '\n' || c = '\r' || c = '\x0b' || c = '\x0c'

/-- Model of JavaScript `String.prototype.trim`: drop leading and trailing
whitespace. -/
def jsTrim (s : String) : String :=
  ⟨((s.data.dropWhile isJsWs).reverse.dropWhile isJsWs).reverse⟩

/-- Model of JavaScript string truthiness for a `string | null | undefined`
value: `null` / `undefined` and the empty string are falsy. -/
def jsTruthy : Option String → Bool
  | none => false
  | some s => s ≠ ""

/-- Model of the JavaScript defaulting idiom `x || d` on a
`string | null | undefined` value: the default is taken when the value is
absent or the empty string. -/
def jsOrS (x : Option String) (d : String) : String :=
  match x with
  | none => d
  | some s => if s = "" then d else s

/-- Model of the JavaScript envelope idiom `x || undefined`: an absent or
empty string collapses to `undefined`. -/
def optTruthy : Option String → Option String
  | none => none
  | some s => if s = "" then none else some s

/-- Split of a character list at every occurrence of a separator character;
JavaScript `split` with a one-character separator, so `""` splits to `[""]`
and adjacent separators produce empty fields. -/
def splitCharAux (sep : Char) : List Char → List Char → List String
  | [], acc => [⟨acc.reverse⟩]
  | c :: cs, acc =>
    if c = sep then ⟨acc.reverse⟩ :: splitCharAux sep cs []
    else splitCharAux sep cs (c :: acc)

/-- Model of JavaScript `s.split(sep)` for a single-character separator. -/
def jsSplit (sep : Char) (s : String) : List String :=
  splitCharAux sep s.data []

/-- Boolean prefix test on strings, via the underlying character lists. -/
def strStartsWith (s pre : String) : Bool :=
  pre.data.isPrefixOf s.data

/-- Model of JavaScript `s.slice(n)` for ASCII content: drop the first `n`
characters. -/
def strDrop (s : String) (n : Nat) : String :=
  ⟨s.data.drop n⟩

/-- Model of JavaScript `s.substring(0, n)`: keep the first `n` characters. -/
def strTake (s : String) (n : Nat) : String :=
  ⟨s.data.take n⟩

/-- Replacement of the first occurrence of a pattern, on character lists;
JavaScript `s.replace(pat, rep)` with string arguments replaces only the
first occurrence. -/
def listReplaceFirst (pat rep : List Char) : List Char → List Char
  | [] => []
  | c :: cs =>
    if pat.isPrefixOf (c :: cs) then rep ++ (c :: cs).drop pat.length
    else c :: listReplaceFirst pat rep cs

/-- Model of `line.slice(7).replace("refs/heads/", "")` from the worktree
listing parser: strip the first occurrence of the ref prefix. -/
def stripRefsHeads (s : String) : String :=
  ⟨listReplaceFirst "refs/heads/".data [] s.data⟩

/-- Model of JavaScript `message.replace(/"/g, '\\"')`: escape every double
quote. -/
def escQData : List Char → List Char
  | [] => []
  | c :: cs => if c = '"' then '\\' :: '"' :: escQData cs else c :: escQData cs

/-- String form of `escQData`. -/
def escQ (s : String) : String :=
  ⟨escQData s.data⟩

/-- ASCII lower-casing of one character, the fragment of JavaScript
`toLowerCase` exercised by the feature data. -/
def asciiLower (c : Char) : Char :=
  if 'A' ≤ c ∧ c ≤ 'Z' then Char.ofNat (c.toNat + 32) else c

/-- ASCII model of JavaScript `s.toLowerCase()`. -/
def jsToLower (s : String) : String :=
  ⟨s.data.map asciiLower⟩

/-- Substring test on character lists: JavaScript `s.includes(sub)`. -/
def listContainsSub (sub : List Char) : List Char → Bool
  | [] => sub.isEmpty
  | c :: cs => sub.isPrefixOf (c :: cs) || listContainsSub sub cs

/-- Model of JavaScript `s.includes(sub)`. -/
def strContainsSub (s sub : String) : Bool :=
  listContainsSub sub.data s.data

/-- Extract the success output of an external call, with a dummy default;
only ever used beneath a hypothesis that the call succeeded. -/
def okD {ε : Type} (e : Except ε String) : String :=
  match e with
  | .ok s => s
  | .error _ => ""

/-! ## Board projector (`useBoardColumnFeatures`, `src/unnamed/part_001`)

A work item as consumed by the board hook.  `category` and `worktreePath`
are optional fields of the TypeScript `Feature` record; `priority` is an
optional number (`??`-defaulted to 999 by the sort). -/

/-- Work item record, as consumed by the board hook. -/
structure Feature where
  id : String
  description : String
  category : Option String
  status : String
  priority : Option Int
  worktreePath : Option String
deriving DecidableEq, Repr

/-- The five board columns (the keys of the `columnFeaturesMap` literal). -/
inductive Column where
  | backlog
  | in_progress
  | waiting_approval
  | verified
  | completed
deriving DecidableEq, Repr

/-- The per-column feature lists built by the hook. -/
structure BoardMap where
  backlog : List Feature
  in_progress : List Feature
  waiting_approval : List Feature
  verified : List Feature
  completed : List Feature
deriving DecidableEq, Repr

/-- Column lookup on a board map. -/
def BoardMap.col (m : BoardMap) : Column → List Feature
  | .backlog => m.backlog
  | .in_progress => m.in_progress
  | .waiting_approval => m.waiting_approval
  | .verified => m.verified
  | .completed => m.completed

/-- The empty board map literal. -/
def emptyBoard : BoardMap :=
  ⟨[], [], [], [], []⟩

/-- Append a feature to one column (`map[c].push(f)`). -/
def pushFeature (m : BoardMap) (c : Column) (f : Feature) : BoardMap :=
  match c with
  | .backlog => { m with backlog := m.backlog ++ [f] }
  | .in_progress => { m with in_progress := m.in_progress ++ [f] }
  | .waiting_approval => { m with waiting_approval := m.waiting_approval ++ [f] }
  | .verified => { m with verified := m.verified ++ [f] }
  | .completed => { m with completed := m.completed ++ [f] }

/-- Column denoted by a stored status string: the five own keys of the map
literal, any other value falling back to `backlog`.  The object-literal
lookup `map[status]` is modelled as own-key membership. -/
def columnOfStatus (s : String) : Column :=
  if s = "backlog" then .backlog
  else if s = "in_progress" then .in_progress
  else if s = "waiting_approval" then .waiting_approval
  else if s = "verified" then .verified
  else if s = "completed" then .completed
  else .backlog

/-- Column a filtered feature lands in: a running feature is forced into
`in_progress`, otherwise its stored status decides. -/
def assignColumn (runningAutoTasks : List String) (f : Feature) : Column :=
  if runningAutoTasks.contains f.id then .in_progress
  else columnOfStatus f.status

/-- The distribution loop `filteredFeatures.forEach(...)`. -/
def distribute (runningAutoTasks : List String) (fs : List Feature) (m : BoardMap) : BoardMap :=
  fs.foldl (fun m f => pushFeature m (assignColumn runningAutoTasks f) f) m

/-- Text filter body: case-insensitive substring match of the normalized
query against `description` and optional `category` (an absent category
short-circuits to false via `?.`). -/
def matchesQuery (normalizedQuery : String) (f : Feature) : Bool :=
  strContainsSub (jsToLower f.description) normalizedQuery ||
    (match f.category with
     | some c => strContainsSub (jsToLower c) normalizedQuery
     | none => false)

/-- Scope filter body: a falsy `worktreePath` (absent or empty) is always
retained; otherwise retained exactly when a specific worktree is selected
and equals the feature's path. -/
def scopePass (currentWorktree : Option String) (f : Feature) : Bool :=
  match f.worktreePath with
  | none => true
  | some p =>
    if p = "" then true
    else
      match currentWorktree with
      | none => false
      | some w => p = w

/-- Text filter as a per-feature predicate: with an empty normalized query
the filter stage is skipped, i.e. every feature passes. -/
def textPass (searchQuery : String) (f : Feature) : Bool :=
  let normalizedQuery := jsTrim (jsToLower searchQuery)
  normalizedQuery = "" || matchesQuery normalizedQuery f

/-- Conjunction of the text and scope filters. -/
def featurePass (searchQuery : String) (currentWorktree : Option String) (f : Feature) : Bool :=
  textPass searchQuery f && scopePass currentWorktree f

/-- Backlog sort key: `a.priority ?? 999`. -/
def priorityKey (f : Feature) : Int :=
  f.priority.getD 999

/-- The board projection `useBoardColumnFeatures` (memoisation stripped):
text filter, scope filter, column distribution, then a stable
priority-ascending sort of the backlog column.  The source sorts with the
comparator `(a, b) => aPriority - bPriority`; ECMAScript `sort` is stable,
and a stable sort by a total key order is uniquely determined by the key
order and the input order, so it is modelled by a stable insertion sort
over the same key. -/
def useBoardColumnFeatures (features : List Feature) (runningAutoTasks : List String)
    (searchQuery : String) (currentWorktree : Option String) : BoardMap :=
  let normalizedQuery := jsTrim (jsToLower searchQuery)
  let filtered1 :=
    if normalizedQuery ≠ "" then features.filter (matchesQuery normalizedQuery) else features
  let filtered2 := filtered1.filter (scopePass currentWorktree)
  let m := distribute runningAutoTasks filtered2 emptyBoard
  { m with
    backlog := m.backlog.insertionSort (fun a b => priorityKey a ≤ priorityKey b) }

/-- The archive list `completedFeatures`: all features whose stored status is
`completed`, unfiltered. -/
def completedFeatures (features : List Feature) : List Feature :=
  features.filter (fun f => f.status = "completed")

/-! ## Isolation registry: listing (`createListHandler`, `src/unnamed/part_002`) -/

/-- Upstream divergence record `{ahead, behind}`. -/
structure AheadBehind where
  ahead : Nat
  behind : Nat
deriving DecidableEq, Repr

/-- One parsed worktree record; the three detail fields are optional and
only filled by the `includeDetails` pass. -/
structure WorktreeInfo where
  path : String
  branch : String
  isMain : Bool
  hasChanges : Option Bool := none
  changedFilesCount : Option Nat := none
  aheadBehind : Option AheadBehind := none
deriving DecidableEq, Repr

/-- The parsing loop of `createListHandler` over the already-split lines of
`git worktree list --porcelain` output.  State: the partially-built current
record (`current.path`, `current.branch`), the `isFirst` flag, and the
accumulated records.  A record is emitted at a blank line when both fields
are truthy (present and nonempty); the first emitted record gets
`isMain = true`. -/
def parseWts : List String → Option String → Option String → Bool → List WorktreeInfo →
    List WorktreeInfo
  | [], _, _, _, acc => acc
  | line :: rest, curPath, curBranch, isFirst, acc =>
    if strStartsWith line "worktree " then
      parseWts rest (some (strDrop line 9)) curBranch isFirst acc
    else if strStartsWith line "branch " then
      parseWts rest curPath (some (stripRefsHeads (strDrop line 7))) isFirst acc
    else if line = "" then
      match curPath, curBranch with
      | some p, some b =>
        if p ≠ "" ∧ b ≠ "" then
          parseWts rest none none false
            (acc ++ [{ path := p, branch := b, isMain := isFirst }])
        else parseWts rest none none isFirst acc
      | _, _ => parseWts rest none none isFirst acc
    else parseWts rest curPath curBranch isFirst acc

/-- Parse of the listing output: split on newlines, then run the loop with
an empty current record and `isFirst = true`. -/
def parseWorktreeList (stdout : String) : List WorktreeInfo :=
  parseWts (jsSplit '\n' stdout) none none true []

/-- Effect of one non-blank line on the current partial record (the
`worktree ` / `branch ` branches of the loop). -/
def blockStep (st : Option String × Option String) (line : String) :
    Option String × Option String :=
  if strStartsWith line "worktree " then (some (strDrop line 9), st.2)
  else if strStartsWith line "branch " then
    (st.1, some (stripRefsHeads (strDrop line 7)))
  else st

/-- Partial record determined by a block's lines. -/
def blockState (ls : List String) (st : Option String × Option String) :
    Option String × Option String :=
  ls.foldl blockStep st

/-- Truthiness of both components of a partial record: the push condition
`current.path && current.branch`. -/
def truthyPair : Option String × Option String → Bool
  | (some p, some b) => p ≠ "" && b ≠ ""
  | _ => false

/-- Well-formed record block: every line nonempty, and the block determines
a truthy (nonempty) path and branch. -/
def wellFormedBlock (ls : List String) : Bool :=
  ls.all (fun l => l ≠ "") && truthyPair (blockState ls (none, none))

/-- Line sequence of a porcelain listing made of the given record blocks:
each block is followed by its terminating blank line. -/
def linesOf (blocks : List (List String)) : List String :=
  (blocks.map (fun bl => bl ++ [""])).flatten

/-- Expected `isMain` flags for `n` records: the first is the main copy. -/
def mainFlags : Nat → List Bool
  | 0 => []
  | n + 1 => true :: List.replicate n false

/-- Per-worktree outcomes of the two detail sub-queries run by the
`includeDetails` pass. -/
structure DetailEnv where
  statusRes : Except String String
  revListRes : Except String String
deriving Repr

/-- Model of `Number` applied to a field of the `rev-list --left-right
--count` output, composed with the code's `|| 0` defaulting: a missing field
(`undefined`) and an unparsable field (`NaN`) both collapse to 0. -/
def jsNumD : Option String → Nat
  | none => 0
  | some s => (s.toNat?).getD 0

/-- Body of the `includeDetails` loop for one record: query the change
count; on failure leave the record untouched (the outer catch just
continues to the next entry).  On success fill `hasChanges` /
`changedFilesCount` (`status.split("\n").filter(Boolean)`), then query
upstream divergence; on its failure default `aheadBehind` to zeroes; on
success destructure `behind`/`ahead` from the tab-separated counts. -/
def detailOne (env : WorktreeInfo → DetailEnv) (wt : WorktreeInfo) : WorktreeInfo :=
  let d := env wt
  match d.statusRes with
  | .error _ => wt
  | .ok status =>
    let changedFiles := (jsSplit '\n' status).filter (fun l => l ≠ "")
    let base := { wt with
      hasChanges := some (changedFiles.length > 0)
      changedFilesCount := some changedFiles.length }
    match d.revListRes with
    | .error _ => { base with aheadBehind := some ⟨0, 0⟩ }
    | .ok revList =>
      let parts := jsSplit '\t' (jsTrim revList)
      { base with
        aheadBehind := some ⟨jsNumD (parts.get? 1), jsNumD (parts.get? 0)⟩ }

/-- The `includeDetails` pass over all records. -/
def addDetails (env : WorktreeInfo → DetailEnv) (wts : List WorktreeInfo) :
    List WorktreeInfo :=
  wts.map (detailOne env)

/-! ## Isolation registry: creation (`createCreateHandler`, `src/unnamed/part_002`) -/

/-- Characters kept by the directory-name sanitiser: `[a-zA-Z0-9_-]`. -/
def isAllowedDirChar (c : Char) : Bool :=
  ('a' ≤ c && c ≤ 'z') || ('A' ≤ c && c ≤ 'Z') || ('0' ≤ c && c ≤ '9') || c = '_' || c = '-'

/-- Model of `branchName.replace(/[^a-zA-Z0-9_-]/g, "-")`: every character
outside the allowed class becomes `-`. -/
def sanitize (s : String) : String :=
  ⟨s.data.map (fun c => if isAllowedDirChar c then c else '-')⟩

/-- Request body of the create endpoint. -/
structure CreateReq where
  projectPath : String
  branchName : String
  baseBranch : Option String
deriving DecidableEq, Repr

/-- Outcomes of the external calls made by the create handler, in program
order.  `accessRes` is `fs.access` on the target path: success means the
path already exists. -/
structure CreateEnv where
  isRepo : Bool
  mkdirErr : Option String
  accessOk : Bool
  revParseVerifyOk : Bool
  worktreeAddErr : Option String
  automakerAccessOk : Bool
  symlinkOk : Bool
deriving Repr

/-- Response of the create endpoint. -/
inductive CreateResp where
  | ok (path branch : String) (isNew : Bool)
  | err (status : Nat) (msg : String)
deriving DecidableEq, Repr

/-- The create handler: validation, repository check, sanitised target path,
conflict check, branch-existence probe, then the worktree-add command (new
branch from `baseBranch || "HEAD"` when the branch ref does not exist).  The
returned trace lists the `execAsync` command strings issued. -/
def runCreate (env : CreateEnv) (req : CreateReq) : CreateResp × List String :=
  if req.projectPath = "" ∨ req.branchName = "" then
    (.err 400 "projectPath and branchName required", [])
  else if !env.isRepo then
    (.err 400 "Not a git repository", [])
  else
    let sanitizedName := sanitize req.branchName
    let worktreePath := req.projectPath ++ "/.worktrees/" ++ sanitizedName
    match env.mkdirErr with
    | some e => (.err 500 e, [])
    | none =>
      if env.accessOk then
        (.err 400 ("Worktree for branch '" ++ req.branchName ++ "' already exists"), [])
      else
        let verifyCmd := "git rev-parse --verify " ++ req.branchName
        let branchExists := env.revParseVerifyOk
        let createCmd :=
          if branchExists then
            "git worktree add \"" ++ worktreePath ++ "\" " ++ req.branchName
          else
            "git worktree add -b " ++ req.branchName ++ " \"" ++ worktreePath ++ "\" " ++
              jsOrS req.baseBranch "HEAD"
        match env.worktreeAddErr with
        | some e => (.err 500 e, [verifyCmd, createCmd])
        | none =>
          (.ok worktreePath req.branchName (!branchExists), [verifyCmd, createCmd])

/-! ## Publication pipeline (`createCreatePRHandler`, `src/unnamed/part_003`) -/

/-- Failure of an external call, carrying the optional `stderr` and
`message` fields the handler inspects. -/
structure ExecErr where
  stderr : Option String
  message : Option String
deriving DecidableEq, Repr

/-- The handler's error-text idiom `err.stderr || err.message || fallback`:
JavaScript `||`, so empty strings cascade to the next alternative. -/
def errText (e : ExecErr) (fallback : String) : String :=
  jsOrS e.stderr (jsOrS e.message fallback)

/-- Modelled from the spec: `getErrorMessage` lives in the server's common
module, which is not part of the sources; the spec only requires a
descriptive message for the catch-all failure envelope.  Modelled as the
error's message field with a generic fallback. -/
def getErrorMessage (e : ExecErr) : String :=
  jsOrS e.message "Unknown error"

/-- Request body of the create-pr endpoint. -/
structure PRRequest where
  worktreePath : String
  commitMessage : Option String
  prTitle : Option String
  prBody : Option String
  baseBranch : Option String
  draft : Bool
deriving DecidableEq, Repr

/-- Outcomes of the external calls the handler may perform, in program
order.  Each field is the result of one `execAsync` call site: `.ok` carries
the stdout, `.error` the thrown error. -/
structure PublishEnv where
  revParseHead : Except ExecErr String
  statusPorcelain : Except ExecErr String
  gitAdd : Except ExecErr String
  gitCommit : Except ExecErr String
  revParseCommit : Except ExecErr String
  pushPlain : Except ExecErr String
  pushSetUpstream : Except ExecErr String
  ghProbe : Except ExecErr String
  gitRemotes : Except ExecErr String
  prCreate : Except ExecErr String
deriving Repr

/-- External commands the handler can issue, tagged with the data that
varies: the (escaped) commit message and the final `gh pr create` command
string. -/
inductive Cmd where
  | revParseHead
  | statusPorcelain
  | add
  | commit (escapedMessage : String)
  | revParseCommit
  | pushPlain (branch : String)
  | pushUpstream (branch : String)
  | ghProbe
  | remotes
  | prCreate (cmd : String)
deriving DecidableEq, Repr

/-- The publication result record returned in the success envelope. -/
structure PublishResult where
  branch : String
  committed : Bool
  commitHash : Option String
  pushed : Bool
  prUrl : Option String
  prCreated : Bool
  prError : Option String
deriving DecidableEq, Repr

/-- Response of the create-pr endpoint. -/
inductive Resp where
  | ok (result : PublishResult)
  | err (status : Nat) (error : String)
deriving DecidableEq, Repr

/-- Word characters of the regex class `\w`. -/
def isWordChar (c : Char) : Bool :=
  ('a' ≤ c && c ≤ 'z') || ('A' ≤ c && c ≤ 'Z') || ('0' ≤ c && c ≤ '9') || c = '_'

/-- Match of the remote-line regex tail `\s+\(fetch\)` (a greedy `\s+`
followed by the literal; shrinking the whitespace run cannot help, since a
whitespace character never starts the literal). -/
def fetchAfterWs : List Char → Bool
  | [] => false
  | c :: cs => if isJsWs c then fetchAfterWs cs else "(fetch)".data.isPrefixOf (c :: cs)

/-- Match of `\s+\(fetch\)`: at least one whitespace character, then the
literal after the whitespace run. -/
def wsFetch : List Char → Bool
  | [] => false
  | c :: cs => isJsWs c && fetchAfterWs cs

/-- Match of the repo part after its first character:
`(?:\.git)?\s+\(fetch\)` may close the match here, or the lazy `[^/\s]+?`
may take one more (non-slash, non-whitespace) character. -/
def repoTailAfterChar : List Char → Bool
  | [] => false
  | c :: cs =>
    wsFetch (c :: cs) ||
    (".git".data.isPrefixOf (c :: cs) && wsFetch ((c :: cs).drop 4)) ||
    (!(c = '/' || isJsWs c) && repoTailAfterChar cs)

/-- Match of the remote-line regex tail `([^/\s]+?)(?:\.git)?\s+\(fetch\)`:
at least one repo character, then the closing alternatives. -/
def repoTail : List Char → Bool
  | [] => false
  | c :: cs => !(c = '/' || isJsWs c) && repoTailAfterChar cs

/-- Match of `([^/]+)\/` then the repo tail, returning the owner capture.
The greedy `[^/]+` must stop exactly at the next slash (it cannot contain
one, and shrinking it leaves a non-slash where the slash is required). -/
def ownerRepoTail (cs : List Char) : Option String :=
  let owner := cs.takeWhile (fun c => c ≠ '/')
  if owner.isEmpty then none
  else
    match cs.drop owner.length with
    | '/' :: rest => if repoTail rest then some ⟨owner⟩ else none
    | _ => none

/-- Scan for the split point of the greedy `.*[:/]` in the remote-line
regex: the engine backtracks the greedy `.*` from the right, so the
LAST `:` or `/` whose continuation matches wins. -/
def scanLastColonSlash : List Char → Option String
  | [] => none
  | c :: cs =>
    match scanLastColonSlash cs with
    | some o => some o
    | none => if c = ':' || c = '/' then ownerRepoTail cs else none

/-- Match of the fork-detection regex
`/^(\w+)\s+.*[:/]([^\/]+)\/([^\/\s]+?)(?:\.git)?\s+\(fetch\)/` against one
line of `git remote -v` output, returning the first two captures
(remote name, owner).  The leading `(\w+)` is the maximal word prefix
(shrinking it leaves a word character where `\s` is required), `\s+`
requires one whitespace character, and everything the greedy `.*` and the
retained whitespace can cover is explored through `scanLastColonSlash`. -/
def matchRemoteLine (line : String) : Option (String × String) :=
  let cs := line.data
  let w := cs.takeWhile isWordChar
  if w.isEmpty then none
  else
    match cs.drop w.length with
    | c :: rest =>
      if isJsWs c then
        match scanLastColonSlash rest with
        | some owner => some (⟨w⟩, owner)
        | none => none
      else none
    | [] => none

/-- Lazy capture `[^\/\s]+?(?:\.git)?\s+\(fetch\)` of the upstream-URL
regex: the shortest nonempty repo segment after which the optional `.git`
and the fetch marker close the match; returns the captured repo segment. -/
def lazyRepo (acc : List Char) : List Char → Option (List Char)
  | [] => none
  | c :: cs =>
    if c = '/' || isJsWs c then none
    else
      let acc' := acc ++ [c]
      if (".git".data.isPrefixOf cs && wsFetch (cs.drop 4)) || wsFetch cs then some acc'
      else lazyRepo acc' cs

/-- Capture attempt of the upstream-URL regex at one position (just after a
`:` or `/`): greedy `[^/]+` owner up to the next slash, then the lazy repo
segment; the capture is `owner/repo`. -/
def upstreamAt (cs : List Char) : Option String :=
  let owner := cs.takeWhile (fun c => c ≠ '/')
  if owner.isEmpty then none
  else
    match cs.drop owner.length with
    | '/' :: rest =>
      match lazyRepo [] rest with
      | some repo => some ⟨owner ++ '/' :: repo⟩
      | none => none
    | _ => none

/-- Left-to-right scan of the unanchored upstream-URL regex
`/[:/]([^\/]+\/[^\/\s]+?)(?:\.git)?\s+\(fetch\)/`: the leftmost start
position that matches wins. -/
def scanUpstream : List Char → Option String
  | [] => none
  | c :: cs =>
    if c = ':' || c = '/' then
      match upstreamAt cs with
      | some s => some s
      | none => scanUpstream cs
    else scanUpstream cs

/-- The capture `match[1]` of the upstream-URL regex on a remote line. -/
def matchUpstreamUrl (line : String) : Option String :=
  scanUpstream line.data

/-- The fork-detection loop over the lines of `git remote -v` output:
a matching line named `upstream` (re)sets `upstreamRepo` from the URL regex
(`|| null` collapsing an absent capture), a matching line named `origin`
records the owner capture. -/
def detectFork (remotesOut : String) : Option String × Option String :=
  (jsSplit '\n' remotesOut).foldl
    (fun st line =>
      match matchRemoteLine line with
      | none => st
      | some (name, owner) =>
        if name = "upstream" then (optTruthy (matchUpstreamUrl line), st.2)
        else if name = "origin" then (st.1, some owner)
        else st)
    (none, none)

/-- Construction of the `gh pr create` command: base flag, fork-aware
`--repo`/`--head` (taken when both `upstreamRepo` and `originOwner` are
truthy), escaped title and body, draft flag, final `trim`. -/
def buildPrCmd (base title body draftFlag branchName : String)
    (upstreamRepo originOwner : Option String) : String :=
  let cmd := "gh pr create --base \"" ++ base ++ "\""
  let cmd :=
    if jsTruthy upstreamRepo && jsTruthy originOwner then
      cmd ++ " --repo \"" ++ upstreamRepo.getD "" ++ "\" --head \"" ++
        originOwner.getD "" ++ ":" ++ branchName ++ "\""
    else
      cmd ++ " --head \"" ++ branchName ++ "\""
  jsTrim (cmd ++ " --title \"" ++ escQ title ++ "\" --body \"" ++ escQ body ++ "\" " ++
    draftFlag)

/-- Commit phase: when the working tree has changes, stage everything,
commit with the (escaped) message, and read the short hash; the first
failing call aborts the whole handler (outer catch). -/
def commitPhase (env : PublishEnv) (req : PRRequest) (branchName : String)
    (hasChanges : Bool) : Except (ExecErr × List Cmd) (Option String × List Cmd) :=
  if hasChanges then
    let message := jsOrS req.commitMessage ("Changes from " ++ branchName)
    match env.gitAdd with
    | .error e => .error (e, [Cmd.add])
    | .ok _ =>
      match env.gitCommit with
      | .error e => .error (e, [Cmd.add, Cmd.commit (escQ message)])
      | .ok _ =>
        match env.revParseCommit with
        | .error e => .error (e, [Cmd.add, Cmd.commit (escQ message), Cmd.revParseCommit])
        | .ok hOut =>
          .ok (some (strTake (jsTrim hOut) 8),
            [Cmd.add, Cmd.commit (escQ message), Cmd.revParseCommit])
  else .ok (none, [])

/-- Push phase: plain push, then one upstream-setting retry; only the
second failure is captured as the push error. -/
def pushPhase (env : PublishEnv) (branchName : String) : Option String × List Cmd :=
  match env.pushPlain with
  | .ok _ => (none, [Cmd.pushPlain branchName])
  | .error _ =>
    match env.pushSetUpstream with
    | .ok _ => (none, [Cmd.pushPlain branchName, Cmd.pushUpstream branchName])
    | .error e2 =>
      (some (errText e2 "Push failed"), [Cmd.pushPlain branchName, Cmd.pushUpstream branchName])

/-- PR phase, the handler's big try block: probe for the `gh` CLI (a probe
failure lands in the same catch as a PR-creation failure), query the
remotes (its own failure is swallowed and fork detection is skipped), build
and run the `gh pr create` command.  Returns `(prUrl, prError, commands)`. -/
def prPhase (env : PublishEnv) (req : PRRequest) (branchName : String) :
    Option String × Option String × List Cmd :=
  let base := jsOrS req.baseBranch "main"
  let title := jsOrS req.prTitle branchName
  let body := jsOrS req.prBody ("Changes from branch " ++ branchName)
  let draftFlag := if req.draft then "--draft" else ""
  match env.ghProbe with
  | .error e => (none, some (errText e "PR creation failed"), [Cmd.ghProbe])
  | .ok _ =>
    let forkInfo :=
      match env.gitRemotes with
      | .error _ => (none, none)
      | .ok remOut => detectFork remOut
    let prCmd := buildPrCmd base title body draftFlag branchName forkInfo.1 forkInfo.2
    match env.prCreate with
    | .ok prOut =>
      (some (jsTrim prOut), none, [Cmd.ghProbe, Cmd.remotes, Cmd.prCreate prCmd])
    | .error e =>
      (none, some (errText e "PR creation failed"), [Cmd.ghProbe, Cmd.remotes, Cmd.prCreate prCmd])

/-- The create-pr handler: validation, branch resolution, change check,
commit phase, push phase with its fatal early return, PR phase, and the
success envelope (`prCreated: !!prUrl`, `prError: prError || undefined`). -/
def runPublish (env : PublishEnv) (req : PRRequest) : Resp × List Cmd :=
  if req.worktreePath = "" then (.err 400 "worktreePath required", [])
  else
    match env.revParseHead with
    | .error e => (.err 500 (getErrorMessage e), [Cmd.revParseHead])
    | .ok bOut =>
      let branchName := jsTrim bOut
      match env.statusPorcelain with
      | .error e => (.err 500 (getErrorMessage e), [Cmd.revParseHead, Cmd.statusPorcelain])
      | .ok sOut =>
        let hasChanges := jsTrim sOut ≠ ""
        match commitPhase env req branchName hasChanges with
        | .error (e, cmds) =>
          (.err 500 (getErrorMessage e), [Cmd.revParseHead, Cmd.statusPorcelain] ++ cmds)
        | .ok (commitHash, commitCmds) =>
          let pre := [Cmd.revParseHead, Cmd.statusPorcelain] ++ commitCmds
          let pushOut := pushPhase env branchName
          match pushOut.1 with
          | some pushError =>
            (.err 500 ("Failed to push branch: " ++ pushError), pre ++ pushOut.2)
          | none =>
            let prOut := prPhase env req branchName
            (.ok {
              branch := branchName
              committed := hasChanges
              commitHash := commitHash
              pushed := true
              prUrl := prOut.1
              prCreated := jsTruthy prOut.1
              prError := optTruthy prOut.2.1 },
              pre ++ pushOut.2 ++ prOut.2.2)

/-! ## Aggregate parse result of a block sequence (specification side of C5) -/

/-- Records produced by a sequence of blocks, threading the `isFirst` flag:
a block that determines a truthy path and branch emits one record. -/
def entriesOf : List (List String) → Bool → List WorktreeInfo
  | [], _ => []
  | bl :: bls, isFirst =>
    match blockState bl (none, none) with
    | (some p, some b) =>
      if p ≠ "" ∧ b ≠ "" then
        { path := p, branch := b, isMain := isFirst } :: entriesOf bls false
      else entriesOf bls isFirst
    | _ => entriesOf bls isFirst

/-- The parsing loop run on a line sequence from an empty state, as the list
handler does after splitting the porcelain output. -/
def parseListedLines (lines : List String) : List WorktreeInfo :=
  parseWts lines none none true []

/-! ## Concrete inputs used by witnesses and counterexamples -/

/-- Scope-agnostic feature used by witnesses. -/
def featNoScope : Feature :=
  ⟨"feat-a", "alpha", none, "verified", some 1, none⟩

/-- Feature bound to the worktree `/a`, used by witnesses. -/
def featScopedA : Feature :=
  ⟨"feat-b", "beta", some "ui", "in_progress", none, some "/a"⟩

/-- Feature whose `worktreePath` is the empty string: present but falsy,
the input refuting the literal scope claim. -/
def featEmptyWt : Feature :=
  ⟨"feat-c", "gamma", none, "verified", none, some ""⟩

/-- Running feature stored as `completed`, used by the C4 witness. -/
def featRunningDone : Feature :=
  ⟨"feat-d", "delta", none, "completed", some 2, none⟩

/-- Worktree record without details, used by C9 instances. -/
def wtPlain : WorktreeInfo :=
  { path := "/repo", branch := "main", isMain := true }

/-- Detail environment whose change-count query fails. -/
def detailEnvStatusFail : WorktreeInfo → DetailEnv :=
  fun _ => ⟨.error "status failed", .ok "0\t0"⟩

/-- Detail environment whose change-count query succeeds and whose
divergence query fails. -/
def detailEnvRevFail : WorktreeInfo → DetailEnv :=
  fun _ => ⟨.ok " M a.ts\n?? b.ts\n", .error "no upstream"⟩

/-- Publish request used by concrete publish instances. -/
def reqW : PRRequest :=
  ⟨"/repo/.worktrees/feat", none, none, none, none, false⟩

/-- Publish environment in which every call succeeds, with the fork-shaped
remote listing of the specification's scenario. -/
def envAllOk : PublishEnv where
  revParseHead := .ok "feat\n"
  statusPorcelain := .ok " M a.ts\n"
  gitAdd := .ok ""
  gitCommit := .ok ""
  revParseCommit := .ok "0123456789abcdef\n"
  pushPlain := .ok ""
  pushSetUpstream := .ok ""
  ghProbe := .ok "/usr/bin/gh\n"
  gitRemotes := .ok
    "origin\tgit@github.com:alice/repo.git (fetch)\norigin\tgit@github.com:alice/repo.git (push)\nupstream\thttps://github.com/org/repo.git (fetch)\nupstream\thttps://github.com/org/repo.git (push)\n"
  prCreate := .ok "https://github.com/org/repo/pull/1\n"

/-- Publish environment in which both pushes fail. -/
def envPushFail : PublishEnv :=
  { envAllOk with
    pushPlain := .error ⟨some "first push error", none⟩
    pushSetUpstream := .error ⟨some "no upstream configured", none⟩ }

/-- Publish environment in which the `gh` presence probe fails (hosting CLI
absent). -/
def envGhAbsent : PublishEnv :=
  { envAllOk with ghProbe := .error ⟨some "", some "Command failed: command -v gh"⟩ }

/-- Publish environment in which the `gh pr create` command fails after a
successful push. -/
def envPrFail : PublishEnv :=
  { envAllOk with prCreate := .error ⟨some "pull request create failed", none⟩ }

/-- Publish environment with no upstream remote configured. -/
def envNoFork : PublishEnv :=
  { envAllOk with
    gitRemotes := .ok
      "origin\tgit@github.com:alice/repo.git (fetch)\norigin\tgit@github.com:alice/repo.git (push)\n" }

/-- Create request with a branch name containing disallowed characters. -/
def createReqW : CreateReq :=
  ⟨"/repo", "feat/one two!", none⟩

/-- Create environment on the happy path (repository present, target free,
branch ref not yet existing). -/
def createEnvW : CreateEnv :=
  ⟨true, none, false, false, none, true, true⟩

/-! ## Lemmas about the board projector -/

/-- Pushing into one column only changes that column. -/
lemma col_pushFeature (m : BoardMap) (c' : Column) (f : Feature) (c : Column) :
    (pushFeature m c' f).col c = if c' = c then m.col c ++ [f] else m.col c := by
  cases c' <;> cases c <;> simp [pushFeature, BoardMap.col]

/-- The distribution loop appends, per column, exactly the features assigned
to it, in encounter order. -/
lemma col_distribute (r : List String) (fs : List Feature) (m : BoardMap) (c : Column) :
    (distribute r fs m).col c =
      m.col c ++ fs.filter (fun f => assignColumn r f = c) := by
  induction fs generalizing m with
  | nil => simp [distribute]
  | cons f t ih =>
    have hstep : distribute r (f :: t) m =
        distribute r t (pushFeature m (assignColumn r f) f) := rfl
    rw [hstep, ih, col_pushFeature, List.filter_cons]
    by_cases h : assignColumn r f = c
    · simp [h]
    · simp [h]

/-- Multiplicity of an element in a filtered list. -/
lemma count_filter_if {α : Type} [DecidableEq α] (p : α → Bool) (a : α) (l : List α) :
    List.count a (l.filter p) = if p a then List.count a l else 0 := by
  induction l with
  | nil => simp
  | cons b t ih =>
    rw [List.filter_cons]
    by_cases hb : b = a
    · subst hb
      by_cases hp : p b <;> simp [hp, List.count_cons, ih]
    · by_cases hp : p b <;>
        simp [hp, List.count_cons_of_ne (fun h => hb h.symm), ih]

/-- The two filter stages compose into the single predicate `featurePass`. -/
lemma filter_stages_eq (features : List Feature) (q : String) (sc : Option String) :
    (if jsTrim (jsToLower q) ≠ "" then
        features.filter (matchesQuery (jsTrim (jsToLower q)))
      else features).filter (scopePass sc) =
    features.filter (featurePass q sc) := by
  by_cases hq : jsTrim (jsToLower q) = ""
  · simp only [hq, ne_eq, not_true_eq_false, if_false]
    apply List.filter_congr
    intro f _
    simp [featurePass, textPass, hq]
  · simp only [ne_eq, hq, not_false_eq_true, if_true, List.filter_filter]
    apply List.filter_congr
    intro f _
    simp [featurePass, textPass, hq, Bool.and_comm]

/-- Multiplicity of a feature in each projected column: a feature occurs in
column `c` with its input multiplicity exactly when it passes both filters
and is assigned to `c`; otherwise it does not occur there at all. -/
lemma count_useBoard (features : List Feature) (r : List String) (q : String)
    (sc : Option String) (f : Feature) (c : Column) :
    List.count f ((useBoardColumnFeatures features r q sc).col c) =
      if featurePass q sc f ∧ assignColumn r f = c then List.count f features else 0 := by
  have hfil := filter_stages_eq features q sc
  have hbase :
      ∀ c', (distribute r (features.filter (featurePass q sc)) emptyBoard).col c' =
        (features.filter (featurePass q sc)).filter (fun g => assignColumn r g = c') := by
    intro c'
    rw [col_distribute]
    simp [emptyBoard, BoardMap.col]
    cases c' <;> simp [BoardMap.col, emptyBoard]
  have hcount :
      ∀ c', List.count f
          ((distribute r (features.filter (featurePass q sc)) emptyBoard).col c') =
        if featurePass q sc f ∧ assignColumn r f = c' then List.count f features else 0 := by
    intro c'
    rw [hbase, count_filter_if, count_filter_if]
    by_cases h1 : featurePass q sc f <;> by_cases h2 : assignColumn r f = c' <;>
      simp [h1, h2]
  cases c with
  | backlog =>
    show List.count f (List.insertionSort _ _) = _
    rw [(List.perm_insertionSort _ _).count_eq]
    have := hcount Column.backlog
    rw [← this]
    show List.count f ((distribute r _ emptyBoard).col Column.backlog) = _
    rw [hfil]
  | in_progress =>
    show List.count f ((distribute r _ emptyBoard).col Column.in_progress) = _
    rw [hfil, hcount]
  | waiting_approval =>
    show List.count f ((distribute r _ emptyBoard).col Column.waiting_approval) = _
    rw [hfil, hcount]
  | verified =>
    show List.count f ((distribute r _ emptyBoard).col Column.verified) = _
    rw [hfil, hcount]
  | completed =>
    show List.count f ((distribute r _ emptyBoard).col Column.completed) = _
    rw [hfil, hcount]

/-- Membership in a projected column, characterised. -/
lemma mem_useBoard_iff (features : List Feature) (r : List String) (q : String)
    (sc : Option String) (f : Feature) (c : Column) :
    f ∈ (useBoardColumnFeatures features r q sc).col c ↔
      featurePass q sc f = true ∧ assignColumn r f = c ∧ f ∈ features := by
  constructor
  · intro hmem
    have hpos : 0 < List.count f ((useBoardColumnFeatures features r q sc).col c) :=
      List.count_pos_iff.mpr hmem
    rw [count_useBoard] at hpos
    by_cases h1 : featurePass q sc f ∧ assignColumn r f = c
    · exact ⟨h1.1, h1.2, List.count_pos_iff.mp (by simpa [h1] using hpos)⟩
    · simp [h1] at hpos
  · rintro ⟨h1, h2, h3⟩
    apply List.count_pos_iff.mp
    rw [count_useBoard]
    simpa [h1, h2] using List.count_pos_iff.mpr h3

/-- C10: the five columns partition the multiset of features that pass the
text and scope filters.  A feature occurs in column `c` with exactly its
multiplicity in the input when it passes both filters and `c` is its
assigned column (running features forced to `in_progress`, otherwise the
stored status, unrecognized statuses falling back to `backlog`), and occurs
nowhere else; a feature that fails a filter occurs in no column. -/
theorem board_columns_partition (features : List Feature) (r : List String) (q : String)
    (sc : Option String) (f : Feature) (c : Column) :
    List.count f ((useBoardColumnFeatures features r q sc).col c) =
      if featurePass q sc f ∧ assignColumn r f = c then List.count f features else 0 :=
  count_useBoard features r q sc f c

/-- C4: a feature that passes the text and scope filters and whose id is in
the running set is placed in the `in_progress` column, irrespective of its
stored status field. -/
theorem running_feature_in_progress (features : List Feature) (r : List String)
    (q : String) (sc : Option String) (f : Feature)
    (hmem : f ∈ features) (hpass : featurePass q sc f = true)
    (hrun : r.contains f.id = true) :
    f ∈ (useBoardColumnFeatures features r q sc).col Column.in_progress := by
  apply (mem_useBoard_iff features r q sc f Column.in_progress).mpr
  refine ⟨hpass, ?_, hmem⟩
  unfold assignColumn
  rw [hrun]
  simp

/-- Witness for C4: a feature stored as `completed` but currently running
appears in `in_progress`. -/
theorem running_feature_in_progress_witness :
    (featRunningDone ∈ [featNoScope, featRunningDone] ∧
      featurePass "" none featRunningDone = true ∧
      ["feat-d"].contains featRunningDone.id = true) ∧
    featRunningDone ∈
      (useBoardColumnFeatures [featNoScope, featRunningDone] ["feat-d"] "" none).col
        Column.in_progress :=
  ⟨⟨by decide, by decide, by decide⟩,
    running_feature_in_progress [featNoScope, featRunningDone] ["feat-d"] "" none
      featRunningDone (by decide) (by decide) (by decide)⟩

/-- C3 (amended): the scope filter of the board projection.  A feature with
no `worktreePath` is retained (in its assigned column) under every scope
selection, provided it passes the text filter; a feature with a *nonempty*
`worktreePath = A` is excluded from every column when a different worktree
`B ≠ A` is selected, and when main is selected (no specific worktree).  The
nonemptiness qualification is forced by the code's truthiness test: an
empty-string `worktreePath` is treated like an absent one. -/
theorem board_scope_filtering (features : List Feature) (r : List String) (q : String) :
    (∀ (sc : Option String) (f : Feature), f ∈ features → textPass q f = true →
      f.worktreePath = none →
      f ∈ (useBoardColumnFeatures features r q sc).col (assignColumn r f)) ∧
    (∀ (A B : String) (f : Feature), f.worktreePath = some A → A ≠ "" → A ≠ B →
      ∀ c, f ∉ (useBoardColumnFeatures features r q (some B)).col c) ∧
    (∀ (A : String) (f : Feature), f.worktreePath = some A → A ≠ "" →
      ∀ c, f ∉ (useBoardColumnFeatures features r q none).col c) := by
  refine ⟨?_, ?_, ?_⟩
  · intro sc f hmem htext hwt
    apply (mem_useBoard_iff features r q sc f _).mpr
    refine ⟨?_, rfl, hmem⟩
    simp [featurePass, htext, scopePass, hwt]
  · intro A B f hwt hA hAB c hmem
    rcases (mem_useBoard_iff features r q (some B) f c).mp hmem with ⟨hpass, -, -⟩
    simp [featurePass, scopePass, hwt, hA] at hpass
    exact hAB hpass.2
  · intro A f hwt hA c hmem
    rcases (mem_useBoard_iff features r q none f c).mp hmem with ⟨hpass, -, -⟩
    simp [featurePass, scopePass, hwt, hA] at hpass

/-- Witness for C3 (amended): a scope-agnostic feature shows up under a
specific worktree selection, and a feature scoped to `/a` is absent
everywhere under selection `/b` and under main. -/
theorem board_scope_filtering_witness :
    (featNoScope ∈ [featNoScope, featScopedA] ∧ textPass "" featNoScope = true ∧
      featNoScope.worktreePath = none ∧ featScopedA.worktreePath = some "/a" ∧
      "/a" ≠ "" ∧ "/a" ≠ "/b") ∧
    featNoScope ∈
      (useBoardColumnFeatures [featNoScope, featScopedA] [] "" (some "/b")).col
        (assignColumn [] featNoScope) ∧
    (∀ c, featScopedA ∉
      (useBoardColumnFeatures [featNoScope, featScopedA] [] "" (some "/b")).col c) ∧
    (∀ c, featScopedA ∉
      (useBoardColumnFeatures [featNoScope, featScopedA] [] "" none).col c) :=
  ⟨⟨by decide, by decide, by decide, by decide, by decide, by decide⟩,
    (board_scope_filtering [featNoScope, featScopedA] [] "").1 (some "/b") featNoScope
      (by decide) (by decide) (by decide),
    (board_scope_filtering [featNoScope, featScopedA] [] "").2.1 "/a" "/b" featScopedA
      (by decide) (by decide) (by decide),
    (board_scope_filtering [featNoScope, featScopedA] [] "").2.2 "/a" featScopedA
      (by decide) (by decide)⟩

/-- Counterexample to C3 as stated: a feature whose `worktreePath` is the
empty string is scoped to `A = ""`, yet it is retained under the different
selection `B = "/w"` (the code's truthiness test treats it as scope-less),
refuting "retained only when scopeSelection = A". -/
theorem board_scope_filtering_counterexample :
    ¬ (∀ (features : List Feature) (r : List String) (q : String) (A B : String)
        (f : Feature), f.worktreePath = some A → A ≠ B →
        ∀ c, f ∉ (useBoardColumnFeatures features r q (some B)).col c) := by
  intro h
  exact h [featEmptyWt] [] "" "" "/w" featEmptyWt (by decide) (by decide)
    Column.verified (by decide)

/-! ## Lemmas about the worktree listing parser -/

/-- Nonblank lines only update the current partial record, exactly as
`blockState` does. -/
lemma parseWts_block (ls : List String) :
    ∀ (rest : List String) (p b : Option String) (isFirst : Bool)
      (acc : List WorktreeInfo), (∀ l ∈ ls, l ≠ "") →
    parseWts (ls ++ rest) p b isFirst acc =
      parseWts rest (blockState ls (p, b)).1 (blockState ls (p, b)).2 isFirst acc := by
  induction ls with
  | nil =>
    intro rest p b isFirst acc _
    simp [blockState]
  | cons line t ih =>
    intro rest p b isFirst acc h
    have hline : line ≠ "" := h line (by simp)
    have ht : ∀ l ∈ t, l ≠ "" := fun l hl => h l (by simp [hl])
    by_cases h1 : strStartsWith line "worktree "
    · have hstep : blockStep (p, b) line = (some (strDrop line 9), b) := by
        simp [blockStep, h1]
      calc parseWts (line :: t ++ rest) p b isFirst acc
          = parseWts (t ++ rest) (some (strDrop line 9)) b isFirst acc := by
            simp [parseWts, h1]
        _ = parseWts rest (blockState t (some (strDrop line 9), b)).1
              (blockState t (some (strDrop line 9), b)).2 isFirst acc :=
            ih rest (some (strDrop line 9)) b isFirst acc ht
        _ = parseWts rest (blockState (line :: t) (p, b)).1
              (blockState (line :: t) (p, b)).2 isFirst acc := by
            simp only [blockState, List.foldl_cons, hstep]
    · by_cases h2 : strStartsWith line "branch "
      · have hstep : blockStep (p, b) line = (p, some (stripRefsHeads (strDrop line 7))) := by
          simp [blockStep, h1, h2]
        calc parseWts (line :: t ++ rest) p b isFirst acc
            = parseWts (t ++ rest) p (some (stripRefsHeads (strDrop line 7))) isFirst acc := by
              simp [parseWts, h1, h2]
          _ = parseWts rest (blockState t (p, some (stripRefsHeads (strDrop line 7)))).1
                (blockState t (p, some (stripRefsHeads (strDrop line 7)))).2 isFirst acc :=
              ih rest p (some (stripRefsHeads (strDrop line 7))) isFirst acc ht
          _ = parseWts rest (blockState (line :: t) (p, b)).1
                (blockState (line :: t) (p, b)).2 isFirst acc := by
              simp only [blockState, List.foldl_cons, hstep]
      · have hstep : blockStep (p, b) line = (p, b) := by
          simp [blockStep, h1, h2]
        calc parseWts (line :: t ++ rest) p b isFirst acc
            = parseWts (t ++ rest) p b isFirst acc := by
              simp [parseWts, h1, h2, hline]
          _ = parseWts rest (blockState t (p, b)).1 (blockState t (p, b)).2 isFirst acc :=
              ih rest p b isFirst acc ht
          _ = parseWts rest (blockState (line :: t) (p, b)).1
                (blockState (line :: t) (p, b)).2 isFirst acc := by
              simp only [blockState, List.foldl_cons, hstep]

/-- A blank line with a truthy current record emits it and clears the
`isFirst` flag. -/
lemma parseWts_blank_push (rest : List String) (p b : String) (isFirst : Bool)
    (acc : List WorktreeInfo) (hp : p ≠ "") (hb : b ≠ "") :
    parseWts ("" :: rest) (some p) (some b) isFirst acc =
      parseWts rest none none false
        (acc ++ [{ path := p, branch := b, isMain := isFirst }]) := by
  have h1 : strStartsWith "" "worktree " = false := by decide
  have h2 : strStartsWith "" "branch " = false := by decide
  simp [parseWts, h1, h2, hp, hb]

/-- Parsing the lines of a sequence of well-formed blocks appends exactly
one record per block, the first parsed record carrying the `isFirst`
flag. -/
lemma parseWts_linesOf (blocks : List (List String)) :
    ∀ (isFirst : Bool) (acc : List WorktreeInfo),
    (∀ bl ∈ blocks, wellFormedBlock bl = true) →
    parseWts (linesOf blocks) none none isFirst acc = acc ++ entriesOf blocks isFirst := by
  induction blocks with
  | nil =>
    intro isFirst acc _
    simp [linesOf, entriesOf, parseWts]
  | cons bl bls ih =>
    intro isFirst acc h
    have hwf : wellFormedBlock bl = true := h bl (by simp)
    rcases Bool.and_eq_true_iff.mp hwf with ⟨hall, htruthy⟩
    have hne : ∀ l ∈ bl, l ≠ "" := by
      intro l hl
      have := List.all_eq_true.mp hall l hl
      simpa using this
    have hlines : linesOf (bl :: bls) = bl ++ ("" :: linesOf bls) := by
      simp [linesOf]
    rw [hlines, parseWts_block bl ("" :: linesOf bls) none none isFirst acc hne]
    rcases hbs : blockState bl (none, none) with ⟨op, ob⟩
    rcases op with _ | p
    · rw [hbs] at htruthy
      simp [truthyPair] at htruthy
    rcases ob with _ | b
    · rw [hbs] at htruthy
      simp [truthyPair] at htruthy
    rw [hbs] at htruthy
    have hp : p ≠ "" := by
      intro hcontra
      simp [truthyPair, hcontra] at htruthy
    have hb : b ≠ "" := by
      intro hcontra
      simp [truthyPair, hcontra] at htruthy
    show parseWts ("" :: linesOf bls) (some p) (some b) isFirst acc = _
    rw [parseWts_blank_push (linesOf bls) p b isFirst acc hp hb,
      ih false _ (fun bl2 hbl2 => h bl2 (by simp [hbl2]))]
    simp [entriesOf, hbs, hp, hb]

/-- One record per well-formed block. -/
lemma entriesOf_length (blocks : List (List String)) :
    ∀ isFirst, (∀ bl ∈ blocks, wellFormedBlock bl = true) →
    (entriesOf blocks isFirst).length = blocks.length := by
  induction blocks with
  | nil => intro isFirst _; simp [entriesOf]
  | cons bl bls ih =>
    intro isFirst h
    have hwf : wellFormedBlock bl = true := h bl (by simp)
    rcases Bool.and_eq_true_iff.mp hwf with ⟨-, htruthy⟩
    rcases hbs : blockState bl (none, none) with ⟨op, ob⟩
    rcases op with _ | p
    · rw [hbs] at htruthy; simp [truthyPair] at htruthy
    rcases ob with _ | b
    · rw [hbs] at htruthy; simp [truthyPair] at htruthy
    rw [hbs] at htruthy
    have hp : p ≠ "" := by intro hc; simp [truthyPair, hc] at htruthy
    have hb : b ≠ "" := by intro hc; simp [truthyPair, hc] at htruthy
    have hrec := ih false (fun bl2 hbl2 => h bl2 (by simp [hbl2]))
    simp [entriesOf, hbs, hp, hb, hrec]

/-- The records of well-formed blocks parsed with `isFirst = false` all
carry `isMain = false`. -/
lemma entriesOf_isMain_false (blocks : List (List String)) :
    (∀ bl ∈ blocks, wellFormedBlock bl = true) →
    (entriesOf blocks false).map (fun w => w.isMain) =
      List.replicate blocks.length false := by
  induction blocks with
  | nil => intro _; simp [entriesOf]
  | cons bl bls ih =>
    intro h
    have hwf : wellFormedBlock bl = true := h bl (by simp)
    rcases Bool.and_eq_true_iff.mp hwf with ⟨-, htruthy⟩
    rcases hbs : blockState bl (none, none) with ⟨op, ob⟩
    rcases op with _ | p
    · rw [hbs] at htruthy; simp [truthyPair] at htruthy
    rcases ob with _ | b
    · rw [hbs] at htruthy; simp [truthyPair] at htruthy
    rw [hbs] at htruthy
    have hp : p ≠ "" := by intro hc; simp [truthyPair, hc] at htruthy
    have hb : b ≠ "" := by intro hc; simp [truthyPair, hc] at htruthy
    have hrec := ih (fun bl2 hbl2 => h bl2 (by simp [hbl2]))
    simp [entriesOf, hbs, hp, hb, hrec, List.replicate_succ]

/-- C5: for a listing output of N well-formed record blocks (each block of
nonblank lines determining a nonempty worktree path and branch, each block
terminated by its blank line), the parser returns exactly N records, the
first with `isMain = true` and all others with `isMain = false`. -/
theorem list_parses_blocks (blocks : List (List String))
    (h : ∀ bl ∈ blocks, wellFormedBlock bl = true) :
    (parseListedLines (linesOf blocks)).length = blocks.length ∧
    (parseListedLines (linesOf blocks)).map (fun w => w.isMain) =
      mainFlags blocks.length := by
  have hrun := parseWts_linesOf blocks true [] h
  constructor
  · rw [parseListedLines, hrun]
    simpa using entriesOf_length blocks true h
  · rw [parseListedLines, hrun]
    cases blocks with
    | nil => simp [entriesOf, mainFlags]
    | cons bl bls =>
      have hwf : wellFormedBlock bl = true := h bl (by simp)
      rcases Bool.and_eq_true_iff.mp hwf with ⟨-, htruthy⟩
      rcases hbs : blockState bl (none, none) with ⟨op, ob⟩
      rcases op with _ | p
      · rw [hbs] at htruthy; simp [truthyPair] at htruthy
      rcases ob with _ | b
      · rw [hbs] at htruthy; simp [truthyPair] at htruthy
      rw [hbs] at htruthy
      have hp : p ≠ "" := by intro hc; simp [truthyPair, hc] at htruthy
      have hb : b ≠ "" := by intro hc; simp [truthyPair, hc] at htruthy
      have hrec := entriesOf_isMain_false bls (fun bl2 hbl2 => h bl2 (by simp [hbl2]))
      simp [entriesOf, hbs, hp, hb, hrec, mainFlags]

/-- Witness for C5: a two-block porcelain listing parses to two records,
main first. -/
theorem list_parses_blocks_witness :
    (∀ bl ∈ [["worktree /main", "HEAD 0fc9ab", "branch refs/heads/main"],
             ["worktree /repo/.worktrees/feat", "branch refs/heads/feat"]],
        wellFormedBlock bl = true) ∧
    (parseListedLines (linesOf
        [["worktree /main", "HEAD 0fc9ab", "branch refs/heads/main"],
         ["worktree /repo/.worktrees/feat", "branch refs/heads/feat"]])).length = 2 ∧
    (parseListedLines (linesOf
        [["worktree /main", "HEAD 0fc9ab", "branch refs/heads/main"],
         ["worktree /repo/.worktrees/feat", "branch refs/heads/feat"]])).map
      (fun w => w.isMain) = mainFlags 2 :=
  ⟨by decide,
    list_parses_blocks
      [["worktree /main", "HEAD 0fc9ab", "branch refs/heads/main"],
       ["worktree /repo/.worktrees/feat", "branch refs/heads/feat"]] (by decide)⟩

/-! ## Claims about the `includeDetails` pass -/

/-- The detail pass never changes the identifying fields of a record. -/
lemma detailOne_preserves (env : WorktreeInfo → DetailEnv) (wt : WorktreeInfo) :
    (detailOne env wt).path = wt.path ∧ (detailOne env wt).branch = wt.branch ∧
    (detailOne env wt).isMain = wt.isMain := by
  rcases hst : (env wt).statusRes with e | s
  · simp [detailOne, hst]
  · rcases hrv : (env wt).revListRes with e2 | r2 <;> simp [detailOne, hst, hrv]

/-- A failing change-count query leaves the record untouched. -/
lemma detailOne_status_fail (env : WorktreeInfo → DetailEnv) (wt : WorktreeInfo)
    (h : (env wt).statusRes.isOk = false) : detailOne env wt = wt := by
  rcases hst : (env wt).statusRes with e | s
  · simp [detailOne, hst]
  · rw [hst] at h
    simp [Except.isOk, Except.toBool] at h

/-- A failing divergence query after a successful change-count query zeroes
`aheadBehind` and keeps the change-count fields. -/
lemma detailOne_rev_fail (env : WorktreeInfo → DetailEnv) (wt : WorktreeInfo) (s : String)
    (hs : (env wt).statusRes = .ok s) (h : (env wt).revListRes.isOk = false) :
    detailOne env wt =
      { wt with
        hasChanges := some (((jsSplit '\n' s).filter (fun l => l ≠ "")).length > 0)
        changedFilesCount := some ((jsSplit '\n' s).filter (fun l => l ≠ "")).length
        aheadBehind := some ⟨0, 0⟩ } := by
  rcases hrv : (env wt).revListRes with e2 | r2
  · simp [detailOne, hs, hrv]
  · rw [hrv] at h
    simp [Except.isOk, Except.toBool] at h

/-- C9 (amended): the detail pass never drops an entry, and never touches
the identifying fields.  When the change-count query fails, the entry is
returned untouched — its detail fields stay unset rather than taking
zero-valued defaults.  When the change-count query succeeds and the
divergence query fails, `aheadBehind` degrades to `{ahead: 0, behind: 0}`
while the change-count fields stand. -/
theorem list_details_degrade (env : WorktreeInfo → DetailEnv) (wts : List WorktreeInfo) :
    (addDetails env wts).length = wts.length ∧
    ∀ (i : Nat) (h1 : i < wts.length) (h2 : i < (addDetails env wts).length),
      (((addDetails env wts).get ⟨i, h2⟩).path = (wts.get ⟨i, h1⟩).path ∧
        ((addDetails env wts).get ⟨i, h2⟩).branch = (wts.get ⟨i, h1⟩).branch ∧
        ((addDetails env wts).get ⟨i, h2⟩).isMain = (wts.get ⟨i, h1⟩).isMain) ∧
      ((env (wts.get ⟨i, h1⟩)).statusRes.isOk = false →
        (addDetails env wts).get ⟨i, h2⟩ = wts.get ⟨i, h1⟩) ∧
      (∀ s, (env (wts.get ⟨i, h1⟩)).statusRes = .ok s →
        (env (wts.get ⟨i, h1⟩)).revListRes.isOk = false →
        ((addDetails env wts).get ⟨i, h2⟩).aheadBehind = some ⟨0, 0⟩ ∧
        ((addDetails env wts).get ⟨i, h2⟩).hasChanges =
          some (decide (((jsSplit '\n' s).filter (fun l => l ≠ "")).length > 0)) ∧
        ((addDetails env wts).get ⟨i, h2⟩).changedFilesCount =
          some ((jsSplit '\n' s).filter (fun l => l ≠ "")).length) := by
  refine ⟨by simp [addDetails], ?_⟩
  intro i h1 h2
  have hget : (addDetails env wts).get ⟨i, h2⟩ = detailOne env (wts.get ⟨i, h1⟩) := by
    simp [addDetails]
  refine ⟨?_, ?_, ?_⟩
  · rw [hget]
    exact detailOne_preserves env (wts.get ⟨i, h1⟩)
  · intro hfail
    rw [hget]
    exact detailOne_status_fail env (wts.get ⟨i, h1⟩) hfail
  · intro s hs hrv
    rw [hget, detailOne_rev_fail env (wts.get ⟨i, h1⟩) s hs hrv]
    exact ⟨rfl, rfl, rfl⟩

/-- Witness for C9 (amended): one entry whose divergence query fails gets
zeroed `aheadBehind` and keeps its change counts; the detail pass keeps the
entry. -/
theorem list_details_degrade_witness :
    ((addDetails detailEnvRevFail [wtPlain]).length = 1 ∧
      (detailEnvRevFail wtPlain).statusRes = .ok " M a.ts\n?? b.ts\n" ∧
      (detailEnvRevFail wtPlain).revListRes.isOk = false) ∧
    ((addDetails detailEnvRevFail [wtPlain]).get ⟨0, by decide⟩).aheadBehind =
      some ⟨0, 0⟩ ∧
    ((addDetails detailEnvRevFail [wtPlain]).get ⟨0, by decide⟩).hasChanges = some true ∧
    ((addDetails detailEnvRevFail [wtPlain]).get ⟨0, by decide⟩).changedFilesCount =
      some 2 := by
  have h := (list_details_degrade detailEnvRevFail [wtPlain]).2 0 (by decide) (by decide)
  have h3 := h.2.2 " M a.ts\n?? b.ts\n" rfl rfl
  refine ⟨⟨by decide, rfl, rfl⟩, h3.1, ?_, ?_⟩
  · rw [h3.2.1]
    decide
  · rw [h3.2.2]
    decide

/-- Counterexample to C9 as stated: with a failing change-count query the
entry is still returned, but its detail fields remain unset (`none`), not
the claimed zero-valued defaults. -/
theorem list_details_degrade_counterexample :
    ¬ (∀ (env : WorktreeInfo → DetailEnv) (wts : List WorktreeInfo) (i : Nat)
        (h1 : i < wts.length) (h2 : i < (addDetails env wts).length),
        (env (wts.get ⟨i, h1⟩)).statusRes.isOk = false →
        ((addDetails env wts).get ⟨i, h2⟩).hasChanges = some false ∧
        ((addDetails env wts).get ⟨i, h2⟩).changedFilesCount = some 0 ∧
        ((addDetails env wts).get ⟨i, h2⟩).aheadBehind = some ⟨0, 0⟩) := by
  intro h
  have := (h detailEnvStatusFail [wtPlain] 0 (by decide) (by decide) rfl).1
  exact absurd this (by decide)

/-! ## Claims about the create handler -/

/-- C8: on the create happy path, the new worktree's directory is the
sanitised branch name (every character outside `[A-Za-z0-9_-]` becomes
`-`, position by position), while the returned descriptor's `branch` field
and the branch ref inside the issued version-control commands keep the
original `branchName` unmodified. -/
theorem create_sanitizes_directory (env : CreateEnv) (req : CreateReq)
    (hproj : req.projectPath ≠ "") (hbr : req.branchName ≠ "")
    (hrepo : env.isRepo = true) (hmkdir : env.mkdirErr = none)
    (haccess : env.accessOk = false) (hadd : env.worktreeAddErr = none) :
    ((runCreate env req).1 =
      .ok (req.projectPath ++ "/.worktrees/" ++ sanitize req.branchName)
        req.branchName (!env.revParseVerifyOk) ∧
    (runCreate env req).2 =
      ["git rev-parse --verify " ++ req.branchName,
        if env.revParseVerifyOk then
          "git worktree add \"" ++ (req.projectPath ++ "/.worktrees/" ++
            sanitize req.branchName) ++ "\" " ++ req.branchName
        else
          "git worktree add -b " ++ req.branchName ++ " \"" ++ (req.projectPath ++
            "/.worktrees/" ++ sanitize req.branchName) ++ "\" " ++
            jsOrS req.baseBranch "HEAD"]) ∧
    (sanitize req.branchName).data.length = req.branchName.data.length ∧
    ∀ (i : Nat) (hi : i < req.branchName.data.length)
      (hi2 : i < (sanitize req.branchName).data.length),
      (sanitize req.branchName).data.get ⟨i, hi2⟩ =
        if isAllowedDirChar (req.branchName.data.get ⟨i, hi⟩) then
          req.branchName.data.get ⟨i, hi⟩
        else '-' := by
  refine ⟨?_, by simp [sanitize], ?_⟩
  · have h0 : ¬ (req.projectPath = "" ∨ req.branchName = "") := by
      simp [hproj, hbr]
    constructor <;> simp [runCreate, h0, hrepo, hmkdir, haccess, hadd]
  · intro i hi hi2
    simp [sanitize]

/-- Witness for C8: branch `feat/one two!` gets directory
`feat-one-two-` while the descriptor and the issued commands keep the
original branch name. -/
theorem create_sanitizes_directory_witness :
    (createReqW.projectPath ≠ "" ∧ createReqW.branchName ≠ "" ∧ createEnvW.isRepo = true ∧
      createEnvW.mkdirErr = none ∧ createEnvW.accessOk = false ∧
      createEnvW.worktreeAddErr = none) ∧
    (runCreate createEnvW createReqW).1 =
      .ok "/repo/.worktrees/feat-one-two-" "feat/one two!" true ∧
    (runCreate createEnvW createReqW).2 =
      ["git rev-parse --verify feat/one two!",
        "git worktree add -b feat/one two! \"/repo/.worktrees/feat-one-two-\" HEAD"] := by
  have h := create_sanitizes_directory createEnvW createReqW (by decide) (by decide)
    rfl rfl rfl rfl
  refine ⟨⟨by decide, by decide, rfl, rfl, rfl, rfl⟩, ?_, ?_⟩
  · rw [h.1.1]
    decide
  · rw [h.1.2]
    decide

/-! ## Lemmas about the publication pipeline -/

/-- JavaScript `||` with a nonempty default never yields the empty string. -/
lemma jsOrS_ne_empty (x : Option String) (d : String) (hd : d ≠ "") : jsOrS x d ≠ "" := by
  rcases x with _ | s
  · simpa [jsOrS] using hd
  · by_cases hs : s = "" <;> simp [jsOrS, hs, hd]

/-- The handler's error text is never empty when the fallback is not. -/
lemma errText_ne_empty (e : ExecErr) (f : String) (hf : f ≠ "") : errText e f ≠ "" :=
  jsOrS_ne_empty e.stderr (jsOrS e.message f) (jsOrS_ne_empty e.message f hf)

/-- `x || undefined` keeps a nonempty string. -/
lemma optTruthy_some (s : String) (hs : s ≠ "") : optTruthy (some s) = some s := by
  simp [optTruthy, hs]

/-- The push phase reports no error exactly when one of the two pushes
succeeded. -/
lemma pushPhase_none_iff (env : PublishEnv) (b : String) :
    (pushPhase env b).1 = none ↔
      (env.pushPlain.isOk = true ∨ env.pushSetUpstream.isOk = true) := by
  rcases h1 : env.pushPlain with e1 | o1 <;> rcases h2 : env.pushSetUpstream with e2 | o2 <;>
    simp [pushPhase, h1, h2, Except.isOk, Except.toBool]

/-- The push phase issues only push commands. -/
lemma pushPhase_cmds (env : PublishEnv) (b : String) :
    (pushPhase env b).2 = [Cmd.pushPlain b] ∨
      (pushPhase env b).2 = [Cmd.pushPlain b, Cmd.pushUpstream b] := by
  rcases h1 : env.pushPlain with e1 | o1 <;> rcases h2 : env.pushSetUpstream with e2 | o2 <;>
    simp [pushPhase, h1, h2]

/-- With no changes the commit phase is skipped. -/
lemma commitPhase_false (env : PublishEnv) (req : PRRequest) (bn : String) :
    commitPhase env req bn false = .ok (none, []) := rfl

/-- Successful commit phase with changes: the exact commands and the short
hash it returns. -/
lemma commitPhase_true_ok (env : PublishEnv) (req : PRRequest) (bn : String)
    (ch : Option String) (cmds : List Cmd)
    (h : commitPhase env req bn true = .ok (ch, cmds)) :
    cmds = [Cmd.add, Cmd.commit (escQ (jsOrS req.commitMessage ("Changes from " ++ bn))),
      Cmd.revParseCommit] ∧
    ∃ hOut, env.revParseCommit = .ok hOut ∧ ch = some (strTake (jsTrim hOut) 8) := by
  rcases ha : env.gitAdd with ea | oa <;>
    rcases hb : env.gitCommit with eb | ob <;>
    rcases hc : env.revParseCommit with ec | oc <;>
    simp [commitPhase, ha, hb, hc] at h
  exact ⟨by simp [h.2.symm], oc, rfl, h.1.symm⟩

/-- The commands of a successful commit phase. -/
lemma commitPhase_ok_cmds (env : PublishEnv) (req : PRRequest) (bn : String)
    (hc : Bool) (ch : Option String) (cmds : List Cmd)
    (h : commitPhase env req bn hc = .ok (ch, cmds)) :
    cmds = [] ∨
      cmds = [Cmd.add, Cmd.commit (escQ (jsOrS req.commitMessage ("Changes from " ++ bn))),
        Cmd.revParseCommit] := by
  cases hc
  · rw [commitPhase_false] at h
    cases h
    simp
  · exact Or.inr (commitPhase_true_ok env req bn ch cmds h).1

/-- The commands of a failed commit phase. -/
lemma commitPhase_error_cmds (env : PublishEnv) (req : PRRequest) (bn : String)
    (hc : Bool) (e : ExecErr) (cmds : List Cmd)
    (h : commitPhase env req bn hc = .error (e, cmds)) :
    cmds = [Cmd.add] ∨
      cmds = [Cmd.add, Cmd.commit (escQ (jsOrS req.commitMessage ("Changes from " ++ bn)))] ∨
      cmds = [Cmd.add, Cmd.commit (escQ (jsOrS req.commitMessage ("Changes from " ++ bn))),
        Cmd.revParseCommit] := by
  cases hc
  · rw [commitPhase_false] at h
    cases h
  · rcases ha : env.gitAdd with ea | oa <;>
      rcases hb : env.gitCommit with eb | ob <;>
      rcases hcx : env.revParseCommit with ec | oc <;>
      simp [commitPhase, ha, hb, hcx] at h <;>
      simp [h]

/-- A PR-creation command only ever appears in the trace after the push
phase reported success: the earlier phases issue no such command, and a
push error terminates the handler before the PR phase. -/
lemma prCreate_only_after_push (env : PublishEnv) (req : PRRequest) (c : String)
    (h : Cmd.prCreate c ∈ (runPublish env req).2) :
    env.pushPlain.isOk = true ∨ env.pushSetUpstream.isOk = true := by
  by_cases h0 : req.worktreePath = ""
  · simp [runPublish, h0] at h
  · rcases hb : env.revParseHead with e | bOut
    · simp [runPublish, h0, hb] at h
    · rcases hs : env.statusPorcelain with e | sOut
      · simp [runPublish, h0, hb, hs] at h
      · rcases hcp : commitPhase env req (jsTrim bOut) (jsTrim sOut ≠ "") with ⟨e, ccmds⟩ | ⟨ch, ccmds⟩ <;>
          simp only [ne_eq, decide_not] at hcp
        · simp [runPublish, h0, hb, hs, hcp] at h
          rcases commitPhase_error_cmds env req (jsTrim bOut) _ e ccmds hcp with h1 | h1 | h1 <;>
            simp [h1] at h
        · rcases hpe : (pushPhase env (jsTrim bOut)).1 with _ | pe
          · exact (pushPhase_none_iff env (jsTrim bOut)).mp hpe
          · simp [runPublish, h0, hb, hs, hcp, hpe] at h
            rcases commitPhase_ok_cmds env req (jsTrim bOut) _ ch ccmds hcp with h1 | h1 <;>
              rcases pushPhase_cmds env (jsTrim bOut) with h2 | h2 <;>
              simp [h1, h2] at h

/-! ## Claims about the publication pipeline -/

/-- C1: when both the plain push and the upstream-setting retry fail, the
handler terminates with the 500 failure envelope carrying the push error
(so no success result exists and `prCreated` is never reported true), the
PR-creation command is never issued; and in general a PR-creation command
is only ever issued after one of the two pushes succeeded. -/
theorem publish_push_failure_no_pr (env : PublishEnv) (req : PRRequest)
    (bOut sOut : String) (ch : Option String) (ccmds : List Cmd) (e1 e2 : ExecErr)
    (hwp : req.worktreePath ≠ "")
    (hb : env.revParseHead = .ok bOut)
    (hs : env.statusPorcelain = .ok sOut)
    (hcp : commitPhase env req (jsTrim bOut) (jsTrim sOut ≠ "") = .ok (ch, ccmds))
    (hp1 : env.pushPlain = .error e1)
    (hp2 : env.pushSetUpstream = .error e2) :
    (runPublish env req).1 =
      .err 500 ("Failed to push branch: " ++ errText e2 "Push failed") ∧
    (∀ c, Cmd.prCreate c ∉ (runPublish env req).2) ∧
    (∀ (envA : PublishEnv) (reqA : PRRequest) (c : String),
      Cmd.prCreate c ∈ (runPublish envA reqA).2 →
      envA.pushPlain.isOk = true ∨ envA.pushSetUpstream.isOk = true) := by
  simp only [ne_eq, decide_not] at hcp
  have hpe : pushPhase env (jsTrim bOut) =
      (some (errText e2 "Push failed"),
        [Cmd.pushPlain (jsTrim bOut), Cmd.pushUpstream (jsTrim bOut)]) := by
    simp [pushPhase, hp1, hp2]
  refine ⟨?_, ?_, fun envA reqA c h => prCreate_only_after_push envA reqA c h⟩
  · simp [runPublish, hwp, hb, hs, hcp, hpe]
  · intro c
    rcases commitPhase_ok_cmds env req (jsTrim bOut) _ ch ccmds hcp with h1 | h1 <;>
      simp [runPublish, hwp, hb, hs, hcp, hpe, h1]

/-- Witness for C1: both pushes fail, the envelope reports the second push
error and the trace holds no PR-creation command. -/
theorem publish_push_failure_no_pr_witness :
    (reqW.worktreePath ≠ "" ∧
      envPushFail.revParseHead = .ok "feat\n" ∧
      envPushFail.statusPorcelain = .ok " M a.ts\n" ∧
      commitPhase envPushFail reqW (jsTrim "feat\n") (jsTrim " M a.ts\n" ≠ "") =
        .ok (some "01234567",
          [Cmd.add, Cmd.commit "Changes from feat", Cmd.revParseCommit]) ∧
      envPushFail.pushPlain = .error ⟨some "first push error", none⟩ ∧
      envPushFail.pushSetUpstream = .error ⟨some "no upstream configured", none⟩) ∧
    (runPublish envPushFail reqW).1 =
      .err 500 "Failed to push branch: no upstream configured" ∧
    (∀ c, Cmd.prCreate c ∉ (runPublish envPushFail reqW).2) := by
  have h := publish_push_failure_no_pr envPushFail reqW "feat\n" " M a.ts\n"
    (some "01234567") [Cmd.add, Cmd.commit "Changes from feat", Cmd.revParseCommit]
    ⟨some "first push error", none⟩ ⟨some "no upstream configured", none⟩
    (by decide) rfl rfl rfl rfl rfl
  refine ⟨⟨by decide, rfl, rfl, rfl, rfl, rfl⟩, ?_, h.2.1⟩
  rw [h.1]
  rfl

/-- Head of a string append, from the head of its left part. -/
lemma strHead (X Y : String) (c : Char) (h : X.data.head? = some c) :
    (X ++ Y).data.head? = some c := by
  rw [String.data_append]
  rcases hx : X.data with _ | ⟨a, t⟩
  · rw [hx] at h
    cases h
  · rw [hx] at h
    cases h
    rfl

/-- Trimming an append whose left part starts with a non-whitespace
character and whose right part contains one: the left part survives whole,
only the right part is right-trimmed. -/
lemma trim_data_append (l₂ : List Char) (c : Char) (cs : List Char)
    (hc : isJsWs c = false)
    (h2 : (l₂.reverse.dropWhile isJsWs).isEmpty = false) :
    ((((c :: cs) ++ l₂).dropWhile isJsWs).reverse.dropWhile isJsWs).reverse =
      (c :: cs) ++ (l₂.reverse.dropWhile isJsWs).reverse := by
  rw [List.cons_append, List.dropWhile_cons, hc]
  simp only [Bool.false_eq_true, if_false]
  rw [List.reverse_cons, List.reverse_append, List.append_assoc, List.dropWhile_append]
  have h2' : ((l₂.reverse.dropWhile isJsWs).isEmpty = true) = False := by
    simp [h2]
  rw [if_neg (by simp [h2])]
  rw [List.reverse_append, List.reverse_append]
  simp

/-- String-level trim-append lemma. -/
lemma jsTrim_append_str (P S : String) (c : Char)
    (h1 : P.data.head? = some c) (hc : isJsWs c = false)
    (hS : ∃ d ∈ S.data, isJsWs d = false) :
    jsTrim (P ++ S) = P ++ ⟨(S.data.reverse.dropWhile isJsWs).reverse⟩ := by
  obtain ⟨cs, hcs⟩ : ∃ cs, P.data = c :: cs := by
    rcases hp : P.data with _ | ⟨a, t⟩
    · rw [hp] at h1
      cases h1
    · rw [hp] at h1
      cases h1
      exact ⟨t, rfl⟩
  have h2 : (S.data.reverse.dropWhile isJsWs).isEmpty = false := by
    rcases hS with ⟨d, hd, hdw⟩
    rcases he : (S.data.reverse.dropWhile isJsWs).isEmpty with _ | _
    · rfl
    · exfalso
      have : S.data.reverse.dropWhile isJsWs = [] := by
        simpa [List.isEmpty_iff] using he
      have := List.dropWhile_eq_nil_iff.mp this d (by simpa using hd)
      rw [hdw] at this
      cases this
  show String.mk ((((P ++ S).data.dropWhile isJsWs).reverse.dropWhile isJsWs).reverse) =
    String.mk (P.data ++ (S.data.reverse.dropWhile isJsWs).reverse)
  refine congrArg String.mk ?_
  rw [String.data_append, hcs]
  exact trim_data_append S.data c cs hc h2

/-- The fork branch of the PR-command construction: the command is the
base/repo/head prefix followed by some (title/body/draft) tail. -/
lemma buildPrCmd_fork (base title body draftFlag bn U O : String)
    (hU : U ≠ "") (hO : O ≠ "") :
    ∃ tail, buildPrCmd base title body draftFlag bn (some U) (some O) =
      "gh pr create --base \"" ++ base ++ "\"" ++ " --repo \"" ++ U ++ "\" --head \"" ++
        O ++ ":" ++ bn ++ "\"" ++ tail := by
  have hcond : (jsTruthy (some U) && jsTruthy (some O)) = true := by
    simp [jsTruthy, hU, hO]
  have happ := jsTrim_append_str
    ("gh pr create --base \"" ++ base ++ "\"" ++ " --repo \"" ++ U ++ "\" --head \"" ++
      O ++ ":" ++ bn ++ "\"")
    (" --title \"" ++ (escQ title ++ ("\" --body \"" ++ (escQ body ++ ("\" " ++ draftFlag)))))
    'g'
    (by repeat apply strHead
        rfl)
    rfl
    ⟨'-', by
      rw [String.data_append]
      exact List.mem_append_left _ (by decide), by decide⟩
  have hred : buildPrCmd base title body draftFlag bn (some U) (some O) =
      jsTrim (("gh pr create --base \"" ++ base ++ "\"" ++ " --repo \"" ++ U ++
          "\" --head \"" ++ O ++ ":" ++ bn ++ "\"") ++
        (" --title \"" ++ (escQ title ++ ("\" --body \"" ++ (escQ body ++
          ("\" " ++ draftFlag)))))) := by
    unfold buildPrCmd
    dsimp only
    rw [if_pos hcond]
    refine congrArg jsTrim ?_
    simp only [String.append_assoc]
    rfl
  exact ⟨_, hred.trans happ⟩

/-- The same-repository branch of the PR-command construction. -/
lemma buildPrCmd_plain (base title body draftFlag bn : String)
    (upstreamRepo originOwner : Option String)
    (h : jsTruthy upstreamRepo = false ∨ jsTruthy originOwner = false) :
    ∃ tail, buildPrCmd base title body draftFlag bn upstreamRepo originOwner =
      "gh pr create --base \"" ++ base ++ "\"" ++ " --head \"" ++ bn ++ "\"" ++ tail := by
  have hcond : (jsTruthy upstreamRepo && jsTruthy originOwner) = false := by
    rcases h with h | h <;> simp [h]
  have happ := jsTrim_append_str
    ("gh pr create --base \"" ++ base ++ "\"" ++ " --head \"" ++ bn ++ "\"")
    (" --title \"" ++ (escQ title ++ ("\" --body \"" ++ (escQ body ++ ("\" " ++ draftFlag)))))
    'g'
    (by repeat apply strHead
        rfl)
    rfl
    ⟨'-', by
      rw [String.data_append]
      exact List.mem_append_left _ (by decide), by decide⟩
  have hred : buildPrCmd base title body draftFlag bn upstreamRepo originOwner =
      jsTrim (("gh pr create --base \"" ++ base ++ "\"" ++ " --head \"" ++ bn ++ "\"") ++
        (" --title \"" ++ (escQ title ++ ("\" --body \"" ++ (escQ body ++
          ("\" " ++ draftFlag)))))) := by
    unfold buildPrCmd
    dsimp only
    rw [if_neg (by simp [hcond])]
    refine congrArg jsTrim ?_
    simp only [String.append_assoc]
  exact ⟨_, hred.trans happ⟩

/-- The handler's success path: branch resolved, status read, commit phase
done, push succeeded — the envelope and trace in terms of the PR phase. -/
lemma runPublish_success (env : PublishEnv) (req : PRRequest) (bOut sOut : String)
    (ch : Option String) (ccmds : List Cmd)
    (hwp : req.worktreePath ≠ "")
    (hb : env.revParseHead = .ok bOut)
    (hs : env.statusPorcelain = .ok sOut)
    (hcp : commitPhase env req (jsTrim bOut) (jsTrim sOut ≠ "") = .ok (ch, ccmds))
    (hpush : (pushPhase env (jsTrim bOut)).1 = none) :
    runPublish env req =
      (.ok { branch := jsTrim bOut, committed := (jsTrim sOut ≠ ""), commitHash := ch,
             pushed := true, prUrl := (prPhase env req (jsTrim bOut)).1,
             prCreated := jsTruthy (prPhase env req (jsTrim bOut)).1,
             prError := optTruthy (prPhase env req (jsTrim bOut)).2.1 },
        [Cmd.revParseHead, Cmd.statusPorcelain] ++ ccmds ++
          (pushPhase env (jsTrim bOut)).2 ++ (prPhase env req (jsTrim bOut)).2.2) := by
  simp only [ne_eq, decide_not] at hcp
  simp [runPublish, hwp, hb, hs, hcp, hpush]

/-- A failing `gh` presence probe short-circuits the PR phase: no remote
query, no PR command, and the probe's error text is captured. -/
lemma prPhase_probe_fail (env : PublishEnv) (req : PRRequest) (bn : String) (e : ExecErr)
    (hgh : env.ghProbe = .error e) :
    prPhase env req bn = (none, some (errText e "PR creation failed"), [Cmd.ghProbe]) := by
  simp [prPhase, hgh]

/-- A failing `gh pr create` after a successful probe: no URL, the error
text captured, the PR command issued last. -/
lemma prPhase_pr_fail (env : PublishEnv) (req : PRRequest) (bn : String) (g : String)
    (e : ExecErr) (hgh : env.ghProbe = .ok g) (hpr : env.prCreate = .error e) :
    ∃ cmd, prPhase env req bn =
      (none, some (errText e "PR creation failed"),
        [Cmd.ghProbe, Cmd.remotes, Cmd.prCreate cmd]) := by
  rcases hrem : env.gitRemotes with er | rr
  · exact ⟨buildPrCmd (jsOrS req.baseBranch "main") (jsOrS req.prTitle bn)
      (jsOrS req.prBody ("Changes from branch " ++ bn))
      (if req.draft then "--draft" else "") bn none none,
      by simp [prPhase, hgh, hpr, hrem]⟩
  · exact ⟨buildPrCmd (jsOrS req.baseBranch "main") (jsOrS req.prTitle bn)
      (jsOrS req.prBody ("Changes from branch " ++ bn))
      (if req.draft then "--draft" else "") bn (detectFork rr).1 (detectFork rr).2,
      by simp [prPhase, hgh, hpr, hrem]⟩

/-- After a successful probe and remote query, the PR phase issues exactly
the probe, the remote query, and the PR command built from the detected
fork topology. -/
lemma prPhase_trace_remotes_ok (env : PublishEnv) (req : PRRequest) (bn : String)
    (g remOut : String) (hgh : env.ghProbe = .ok g) (hrem : env.gitRemotes = .ok remOut) :
    (prPhase env req bn).2.2 =
      [Cmd.ghProbe, Cmd.remotes,
        Cmd.prCreate (buildPrCmd (jsOrS req.baseBranch "main") (jsOrS req.prTitle bn)
          (jsOrS req.prBody ("Changes from branch " ++ bn))
          (if req.draft then "--draft" else "") bn
          (detectFork remOut).1 (detectFork remOut).2)] := by
  rcases hpr : env.prCreate with e | o <;> simp [prPhase, hgh, hrem, hpr]

/-- C2 (amended): when the push succeeds but the hosting-CLI presence probe
fails, PR creation is skipped — neither the remote query nor the PR command
is ever issued — and the result has `pushed = true`, `prCreated = false`;
but `prError` is set to the probe's failure text: the catch block treats
tool absence exactly like tool failure, so the two are *not* distinguished
in the result. -/
theorem publish_gh_absent_reports_error (env : PublishEnv) (req : PRRequest)
    (bOut sOut : String) (ch : Option String) (ccmds : List Cmd) (e : ExecErr)
    (hwp : req.worktreePath ≠ "")
    (hb : env.revParseHead = .ok bOut)
    (hs : env.statusPorcelain = .ok sOut)
    (hcp : commitPhase env req (jsTrim bOut) (jsTrim sOut ≠ "") = .ok (ch, ccmds))
    (hpush : (pushPhase env (jsTrim bOut)).1 = none)
    (hgh : env.ghProbe = .error e) :
    (runPublish env req).1 =
      .ok { branch := jsTrim bOut, committed := (jsTrim sOut ≠ ""), commitHash := ch,
            pushed := true, prUrl := none, prCreated := false,
            prError := some (errText e "PR creation failed") } ∧
    (∀ c, Cmd.prCreate c ∉ (runPublish env req).2) ∧
    Cmd.remotes ∉ (runPublish env req).2 := by
  have hrun := runPublish_success env req bOut sOut ch ccmds hwp hb hs hcp hpush
  have hpr := prPhase_probe_fail env req (jsTrim bOut) e hgh
  have hopt : optTruthy (some (errText e "PR creation failed")) =
      some (errText e "PR creation failed") :=
    optTruthy_some _ (errText_ne_empty e _ (by decide))
  refine ⟨?_, ?_, ?_⟩
  · rw [hrun]
    simp [hpr, hopt, jsTruthy]
  · intro c
    rw [hrun]
    rcases commitPhase_ok_cmds env req (jsTrim bOut) _ ch ccmds
        (by simpa [ne_eq, decide_not] using hcp) with h1 | h1 <;>
      rcases pushPhase_cmds env (jsTrim bOut) with h2 | h2 <;>
      simp [hpr, h1, h2]
  · rw [hrun]
    rcases commitPhase_ok_cmds env req (jsTrim bOut) _ ch ccmds
        (by simpa [ne_eq, decide_not] using hcp) with h1 | h1 <;>
      rcases pushPhase_cmds env (jsTrim bOut) with h2 | h2 <;>
      simp [hpr, h1, h2]

/-- Witness for C2 (amended): a concrete run with the probe failing after a
successful push. -/
theorem publish_gh_absent_reports_error_witness :
    (reqW.worktreePath ≠ "" ∧
      envGhAbsent.ghProbe = .error ⟨some "", some "Command failed: command -v gh"⟩ ∧
      (pushPhase envGhAbsent (jsTrim "feat\n")).1 = none) ∧
    (runPublish envGhAbsent reqW).1 =
      .ok { branch := "feat", committed := true, commitHash := some "01234567",
            pushed := true, prUrl := none, prCreated := false,
            prError := some "Command failed: command -v gh" } ∧
    (∀ c, Cmd.prCreate c ∉ (runPublish envGhAbsent reqW).2) := by
  have h := publish_gh_absent_reports_error envGhAbsent reqW "feat\n" " M a.ts\n"
    (some "01234567") [Cmd.add, Cmd.commit "Changes from feat", Cmd.revParseCommit]
    ⟨some "", some "Command failed: command -v gh"⟩
    (by decide) rfl rfl rfl rfl rfl
  refine ⟨⟨by decide, rfl, rfl⟩, ?_, h.2.1⟩
  rw [h.1]
  rfl

/-- Counterexample to C2 as stated: the claim asserts that with the push
succeeded and the hosting CLI absent the returned result carries *no*
`prError`; the handler in fact stores the probe's failure text there. -/
theorem publish_gh_absent_counterexample :
    ¬ (∀ (env : PublishEnv) (req : PRRequest) (e : ExecErr) (r : PublishResult),
        env.pushPlain.isOk = true → env.ghProbe = .error e →
        (runPublish env req).1 = .ok r → r.prError = none) := by
  intro h
  exact absurd
    (h envGhAbsent reqW ⟨some "", some "Command failed: command -v gh"⟩
      { branch := "feat", committed := true, commitHash := some "01234567",
        pushed := true, prUrl := none, prCreated := false,
        prError := some "Command failed: command -v gh" } rfl rfl (by decide))
    (by decide)

/-- C7: when commit and push succeed but the `gh pr create` command fails,
the handler still returns the success envelope reporting the branch, the
commit outcome and hash, and `pushed = true`, with `prCreated = false` and
the failure captured in `prError`; the PR attempt is the final external
command (nothing runs after it that could undo the commit or push), and
when there were changes the commit command is in the trace and stands. -/
theorem publish_pr_failure_partial_success (env : PublishEnv) (req : PRRequest)
    (bOut sOut : String) (ch : Option String) (ccmds : List Cmd) (g : String) (e : ExecErr)
    (hwp : req.worktreePath ≠ "")
    (hb : env.revParseHead = .ok bOut)
    (hs : env.statusPorcelain = .ok sOut)
    (hcp : commitPhase env req (jsTrim bOut) (jsTrim sOut ≠ "") = .ok (ch, ccmds))
    (hpush : (pushPhase env (jsTrim bOut)).1 = none)
    (hgh : env.ghProbe = .ok g)
    (hpr : env.prCreate = .error e) :
    (runPublish env req).1 =
      .ok { branch := jsTrim bOut, committed := (jsTrim sOut ≠ ""), commitHash := ch,
            pushed := true, prUrl := none, prCreated := false,
            prError := some (errText e "PR creation failed") } ∧
    (∃ pre cmd, (runPublish env req).2 = pre ++ [Cmd.prCreate cmd]) ∧
    (jsTrim sOut ≠ "" →
      Cmd.commit (escQ (jsOrS req.commitMessage ("Changes from " ++ jsTrim bOut))) ∈
        (runPublish env req).2) := by
  have hrun := runPublish_success env req bOut sOut ch ccmds hwp hb hs hcp hpush
  obtain ⟨cmd, hpr2⟩ := prPhase_pr_fail env req (jsTrim bOut) g e hgh hpr
  have hopt : optTruthy (some (errText e "PR creation failed")) =
      some (errText e "PR creation failed") :=
    optTruthy_some _ (errText_ne_empty e _ (by decide))
  refine ⟨?_, ?_, ?_⟩
  · rw [hrun]
    simp [hpr2, hopt, jsTruthy]
  · refine ⟨[Cmd.revParseHead, Cmd.statusPorcelain] ++ ccmds ++
      (pushPhase env (jsTrim bOut)).2 ++ [Cmd.ghProbe, Cmd.remotes], cmd, ?_⟩
    rw [hrun]
    simp [hpr2]
  · intro hch
    have hdec : (decide (jsTrim sOut ≠ "")) = true := decide_eq_true hch
    rw [hdec] at hcp
    have hccmds := (commitPhase_true_ok env req (jsTrim bOut) ch ccmds hcp).1
    rw [hrun]
    simp [hccmds]

/-- C6: once the publish handler reaches the PR step (push succeeded, `gh`
present, remotes listed), the issued `gh pr create` command targets the
upstream repository with head `owner:branch` when fork detection yields an
upstream repo and an origin owner, and plain `--head branch` (no `--repo`)
when no upstream remote was detected. -/
theorem publish_fork_topology (env : PublishEnv) (req : PRRequest)
    (bOut sOut : String) (ch : Option String) (ccmds : List Cmd) (g remOut : String)
    (hwp : req.worktreePath ≠ "")
    (hb : env.revParseHead = .ok bOut)
    (hs : env.statusPorcelain = .ok sOut)
    (hcp : commitPhase env req (jsTrim bOut) (jsTrim sOut ≠ "") = .ok (ch, ccmds))
    (hpush : (pushPhase env (jsTrim bOut)).1 = none)
    (hgh : env.ghProbe = .ok g)
    (hrem : env.gitRemotes = .ok remOut) :
    (∀ U O, detectFork remOut = (some U, some O) → U ≠ "" → O ≠ "" →
      ∃ tail, Cmd.prCreate ("gh pr create --base \"" ++ jsOrS req.baseBranch "main" ++
          "\"" ++ " --repo \"" ++ U ++ "\" --head \"" ++ O ++ ":" ++ jsTrim bOut ++
          "\"" ++ tail) ∈ (runPublish env req).2) ∧
    ((detectFork remOut).1 = none →
      ∃ tail, Cmd.prCreate ("gh pr create --base \"" ++ jsOrS req.baseBranch "main" ++
          "\"" ++ " --head \"" ++ jsTrim bOut ++ "\"" ++ tail) ∈ (runPublish env req).2) := by
  have hrun := runPublish_success env req bOut sOut ch ccmds hwp hb hs hcp hpush
  have htr := prPhase_trace_remotes_ok env req (jsTrim bOut) g remOut hgh hrem
  constructor
  · intro U O hdet hU hO
    obtain ⟨tail, htail⟩ := buildPrCmd_fork (jsOrS req.baseBranch "main")
      (jsOrS req.prTitle (jsTrim bOut))
      (jsOrS req.prBody ("Changes from branch " ++ jsTrim bOut))
      (if req.draft then "--draft" else "") (jsTrim bOut) U O hU hO
    refine ⟨tail, ?_⟩
    rw [hrun]
    show Cmd.prCreate _ ∈ [Cmd.revParseHead, Cmd.statusPorcelain] ++ ccmds ++
      (pushPhase env (jsTrim bOut)).2 ++ (prPhase env req (jsTrim bOut)).2.2
    rw [htr, hdet]
    simp only [← htail]
    simp
  · intro hdet
    obtain ⟨tail, htail⟩ := buildPrCmd_plain (jsOrS req.baseBranch "main")
      (jsOrS req.prTitle (jsTrim bOut))
      (jsOrS req.prBody ("Changes from branch " ++ jsTrim bOut))
      (if req.draft then "--draft" else "") (jsTrim bOut)
      (detectFork remOut).1 (detectFork remOut).2 (Or.inl (by simp [hdet, jsTruthy]))
    refine ⟨tail, ?_⟩
    rw [hrun]
    show Cmd.prCreate _ ∈ [Cmd.revParseHead, Cmd.statusPorcelain] ++ ccmds ++
      (pushPhase env (jsTrim bOut)).2 ++ (prPhase env req (jsTrim bOut)).2.2
    rw [htr]
    simp only [← htail]
    simp

/-- Witness for C7: concrete run in which the PR command fails after a
successful commit and push. -/
theorem publish_pr_failure_partial_success_witness :
    (reqW.worktreePath ≠ "" ∧ envPrFail.ghProbe = .ok "/usr/bin/gh\n" ∧
      envPrFail.prCreate = .error ⟨some "pull request create failed", none⟩ ∧
      (pushPhase envPrFail (jsTrim "feat\n")).1 = none ∧ jsTrim " M a.ts\n" ≠ "") ∧
    (runPublish envPrFail reqW).1 =
      .ok { branch := "feat", committed := true, commitHash := some "01234567",
            pushed := true, prUrl := none, prCreated := false,
            prError := some "pull request create failed" } ∧
    (∃ pre cmd, (runPublish envPrFail reqW).2 = pre ++ [Cmd.prCreate cmd]) ∧
    Cmd.commit "Changes from feat" ∈ (runPublish envPrFail reqW).2 := by
  have h := publish_pr_failure_partial_success envPrFail reqW "feat\n" " M a.ts\n"
    (some "01234567") [Cmd.add, Cmd.commit "Changes from feat", Cmd.revParseCommit]
    "/usr/bin/gh\n" ⟨some "pull request create failed", none⟩
    (by decide) rfl rfl rfl rfl rfl rfl
  refine ⟨⟨by decide, rfl, rfl, rfl, by decide⟩, ?_, h.2.1, ?_⟩
  · rw [h.1]
    rfl
  · exact h.2.2 (by decide)

/-- Witness for C6: with the scenario's remotes (`upstream` at `org/repo`,
`origin` owned by `alice`) the PR command targets `org/repo` with head
`alice:feat`; with only an `origin` remote it is plain `--head feat`. -/
theorem publish_fork_topology_witness :
    (detectFork "origin\tgit@github.com:alice/repo.git (fetch)\norigin\tgit@github.com:alice/repo.git (push)\nupstream\thttps://github.com/org/repo.git (fetch)\nupstream\thttps://github.com/org/repo.git (push)\n" =
      (some "org/repo", some "alice") ∧
      (detectFork "origin\tgit@github.com:alice/repo.git (fetch)\norigin\tgit@github.com:alice/repo.git (push)\n").1 = none) ∧
    (∃ tail, Cmd.prCreate ("gh pr create --base \"" ++ jsOrS reqW.baseBranch "main" ++
        "\"" ++ " --repo \"" ++ "org/repo" ++ "\" --head \"" ++ "alice" ++ ":" ++
        jsTrim "feat\n" ++ "\"" ++ tail) ∈ (runPublish envAllOk reqW).2) ∧
    (∃ tail, Cmd.prCreate ("gh pr create --base \"" ++ jsOrS reqW.baseBranch "main" ++
        "\"" ++ " --head \"" ++ jsTrim "feat\n" ++ "\"" ++ tail) ∈
      (runPublish envNoFork reqW).2) := by
  have hFork := publish_fork_topology envAllOk reqW "feat\n" " M a.ts\n"
    (some "01234567") [Cmd.add, Cmd.commit "Changes from feat", Cmd.revParseCommit]
    "/usr/bin/gh\n"
    "origin\tgit@github.com:alice/repo.git (fetch)\norigin\tgit@github.com:alice/repo.git (push)\nupstream\thttps://github.com/org/repo.git (fetch)\nupstream\thttps://github.com/org/repo.git (push)\n"
    (by decide) rfl rfl rfl rfl rfl rfl
  have hPlain := publish_fork_topology envNoFork reqW "feat\n" " M a.ts\n"
    (some "01234567") [Cmd.add, Cmd.commit "Changes from feat", Cmd.revParseCommit]
    "/usr/bin/gh\n"
    "origin\tgit@github.com:alice/repo.git (fetch)\norigin\tgit@github.com:alice/repo.git (push)\n"
    (by decide) rfl rfl rfl rfl rfl rfl
  refine ⟨⟨by decide, by decide⟩, ?_, ?_⟩
  · exact hFork.1 "org/repo" "alice" (by decide) (by decide) (by decide)
  · exact hPlain.2 (by decide)
